import Mathlib

/-!
# Verification of the Grapheme expression parser core

This development gives a shallow embedding, in Lean, of the tokenizer and the
tree-building pipeline of the Grapheme expression parser
(`src/src/expression_tokenizer.js`, second revision in the file, and
`src/unnamed/part_006`), and proves or refutes the specification claims about
them.

Modelling conventions:
* JavaScript character access `string.charCodeAt(i)` is modelled by
  `codeAt : String → Nat → Option Nat`; `none` stands for the `NaN` produced
  out of range (every comparison of `NaN` with a number is false, matching
  comparisons of `none` against `some` literals).
* JavaScript `undefined` appearing as an array element is modelled by the
  dedicated constructor `PN.undef`; reading `.type` of `undefined` throws a
  `TypeError`, modelled by `JsErr.typeError`.
* The reference-error raised by `findTemplateSpecialization` when it reads the
  undeclared identifier `stack` is modelled by `JsErr.refError`.
* `ParserError` is modelled by `JsErr.parserError index msg` carrying the raw
  index and the raw primary message handed to `errorInString`; the formatted
  excerpt, caret and "Note:" suggestion strings are not modelled (the
  formatter in `parser_error.js` always begins the formatted text with the
  primary message, so message-prefix claims transfer).
* Unbounded JS loops are modelled with an explicit fuel parameter; exhausted
  fuel yields the sentinel error `JsErr.outOfFuel`, which no actual run with
  the fuel supplied by the entry points ever produces, so `Except.ok` results
  always correspond to genuine terminating runs of the source.
-/

set_option maxRecDepth 4000
set_option maxHeartbeats 4000000

namespace Grapheme

/-- Character access `string.charCodeAt(i)`: `none` models `NaN` (out of range). -/
def codeAt (s : String) (i : Nat) : Option Nat :=
  (s.data.get? i).map Char.toNat

/-- `string.slice(a, b)` for `0 ≤ a ≤ b` (the only form the tokenizer uses). -/
def jsSlice (s : String) (a b : Nat) : String :=
  ⟨(s.data.drop a).take (b - a)⟩

/-- `String.prototype.startsWith(op, pos)`. -/
def jsStartsWith (s : String) (op : String) (pos : Nat) : Bool :=
  op.data.isPrefixOf (s.data.drop pos)

/-- `isValidStartingCharacter` of `expression_tokenizer.js`: `[A-Za-z_]`. -/
def isValidStartingCharacter (c : Nat) : Bool :=
  (65 ≤ c && c ≤ 90) || c == 95 || (97 ≤ c && c ≤ 122)

/-- `isValidContinuationCharacter`: `[A-Za-z0-9_]`. -/
def isValidContinuationCharacter (c : Nat) : Bool :=
  isValidStartingCharacter c || (48 ≤ c && c ≤ 57)

/-- `isValidStartingCharacter` applied to a possibly-`NaN` char code. -/
def isValidStartingCharacterO (c : Option Nat) : Bool :=
  match c with
  | some c => isValidStartingCharacter c
  | none => false

/-- `isWhitespace` of `expression_tokenizer.js`. -/
def isWhitespace (c : Nat) : Bool :=
  c == 0x20 || c == 0x9 || c == 0xa || c == 0xc || c == 0xd ||
    c == 0xa0 || c == 0x2028 || c == 0x2029

/-- `isWhitespace` applied to a possibly-`NaN` char code. -/
def isWhitespaceO (c : Option Nat) : Bool :=
  match c with
  | some c => isWhitespace c
  | none => false

/-- The whitespace-skipping loop at the top of the tokenizer's main loop:
first index `≥ ci` holding a non-whitespace character (or the string length). -/
def skipWs (s : String) (ci : Nat) : Nat :=
  ci + ((s.data.drop ci).takeWhile (fun ch => isWhitespace ch.toNat)).length

/-- `findSimpleVariableToken`: end index of a `[A-Za-z_][A-Za-z0-9_]*` token
starting at `startIndex`, given the character code found there. -/
def findSimpleVariableToken (s : String) (startIndex : Nat) (firstChar : Option Nat) :
    Option Nat :=
  if isValidStartingCharacterO firstChar then
    some (startIndex + 1 +
      ((s.data.drop (startIndex + 1)).takeWhile
        (fun ch => isValidContinuationCharacter ch.toNat)).length)
  else
    none

/-- Loop state of `findVariableToken` (second revision): returns the final
values of `i`, `colonCount` and `lastVarEnd`. -/
def fvtLoop (s : String) (startIndex : Nat) :
    Nat → Nat → Nat → Nat → (Nat × Nat × Nat)
  | 0, i, cc, lve => (i, cc, lve)
  | fuel + 1, i, cc, lve =>
    if i < s.length then
      match codeAt s i with
      | some 58 =>
        if cc = 2 then (lve, cc, lve)
        else if cc = 0 then fvtLoop s startIndex fuel (i + 1) (cc + 1) i
        else fvtLoop s startIndex fuel (i + 1) (cc + 1) lve
      | c =>
        if i = startIndex ∨ cc = 2 then
          match findSimpleVariableToken s i c with
          | none => (lve, cc, lve)
          | some newI => fvtLoop s startIndex fuel newI cc newI
        else (i, cc, lve)
    else (i, cc, lve)

/-- `findVariableToken` (second revision): recognizes a possibly-namespaced
variable name (`a`, `a::b`, `::a::b`, ...); `none` models the `-1` result. -/
def findVariableToken (s : String) (startIndex : Nat) (firstChar : Option Nat) :
    Option Nat :=
  let jump : Bool := firstChar == some 58 && codeAt s (startIndex + 1) == some 58
  let st := if jump then startIndex + 2 else startIndex
  let cc0 := if jump then 2 else 0
  let r := fvtLoop s st (s.length + 1) st cc0 st
  let i := if r.2.1 = 2 ∨ r.2.1 = 1 then r.2.2 else r.1
  if i = st then none else some i

/-- Scanning loop of `findStringToken` over the characters after the opening
quote: relative index of the first occurrence of the quote character that is
not under an active backslash escape. -/
def findStringScan (q : Nat) : List Char → Bool → Option Nat
  | [], _ => none
  | c :: rest, esc =>
    if c.toNat == q && !esc then some 0
    else (findStringScan q rest (if c.toNat == 92 then !esc else false)).map Nat.succ

/-- `findStringToken`: end index (one past the closing quote) of a string
literal starting at `startIndex`, or `none`. -/
def findStringToken (s : String) (startIndex : Nat) (firstChar : Option Nat) :
    Option Nat :=
  match firstChar with
  | some q =>
    if q = 34 ∨ q = 39 then
      (findStringScan q (s.data.drop (startIndex + 1)) false).map
        (fun k => startIndex + 1 + k + 1)
    else none
  | none => none

/-- Loop of `findNumericToken`: state is `(i, exponentialFound, decimalPointFound,
numericFound, exponentialIndex)`; returns the final `(i, numericFound)`. -/
def fntLoop (s : String) (startIndex : Nat) :
    Nat → Nat → Bool → Bool → Bool → Nat → (Nat × Bool)
  | 0, i, _, _, nf, _ => (i, nf)
  | fuel + 1, i, ef, df, nf, ei =>
    if i < s.length then
      match codeAt s i with
      | some c =>
        if c = 101 ∨ c = 69 then
          if ef ∨ i = startIndex then (i, nf)
          else fntLoop s startIndex fuel (i + 1) true df nf i
        else if c = 46 then
          if df then (i, nf)
          else if ef then (ei, nf)
          else fntLoop s startIndex fuel (i + 1) ef true nf ei
        else if 48 ≤ c ∧ c ≤ 57 then
          fntLoop s startIndex fuel (i + 1) ef df true ei
        else if c = 45 ∨ c = 43 then
          if ¬ef then (i, nf)
          else if i ≠ ei + 1 then (i, nf)
          else fntLoop s startIndex fuel (i + 1) ef df nf ei
        else (i, nf)
      | none => (i, nf)
    else (i, nf)

/-- `findNumericToken` (second revision, with the `numericFound` digit check). -/
def findNumericToken (s : String) (startIndex : Nat) : Option Nat :=
  let r := fntLoop s startIndex (s.length + 1) startIndex false false false 0
  if r.1 = startIndex ∨ r.2 = false then none else some r.1

/-- `operatorOrder`: the keys of `simpleOperators` stably sorted by decreasing
length (`and` and `or` are added to `simpleOperators` only after this list is
computed, so they are absent). -/
def operatorOrder : List String :=
  ["!!", "!=", "==", "<=", ">=", "+", "-", "*", "/", "!", "^", "=", "<", ">"]

/-- `operatorsFollowedByWhitespace`. -/
def operatorsFollowedByWhitespace : List String := ["and", "or"]

/-- The `simpleOperators` lookup table: `=` canonicalizes to `==`, every other
operator (including `and` and `or`, added by the loop below the table) maps to
itself. -/
def simpleOperatorsLookup (op : String) : String :=
  if op = "=" then "==" else op

/-- `findOperatorToken`: longest symbolic operator match, then the word
operators, whose match requires a whitespace character at position
`startIndex + op.length + 1` (the off-by-one check of the source). -/
def findOperatorToken (s : String) (startIndex : Nat) : Option Nat :=
  match operatorOrder.find? (fun op => jsStartsWith s op startIndex) with
  | some op => some (startIndex + op.length)
  | none =>
    match operatorsFollowedByWhitespace.find?
        (fun op => jsStartsWith s op startIndex &&
          isWhitespaceO (codeAt s (startIndex + op.length + 1))) with
    | some op => some (startIndex + op.length)
    | none => none

/-- `findPropertyAccessToken`: a `.` followed by a simple variable name. -/
def findPropertyAccessToken (s : String) (startIndex : Nat) (charCode : Option Nat) :
    Option Nat :=
  if charCode = some 46 then
    findSimpleVariableToken s (startIndex + 1) (codeAt s (startIndex + 1))
  else none

/-- `findArrowFunctionToken`: `->`. -/
def findArrowFunctionToken (s : String) (startIndex : Nat) (charCode : Option Nat) :
    Option Nat :=
  if charCode = some 45 ∧ codeAt s (startIndex + 1) = some 62 then
    some (startIndex + 2)
  else none

/-- Errors a run of the parser can surface. `parserError` carries the raw
index argument (as passed to `errorInString`; `none` when the source passes
`undefined` or constructs a bare `ParserError`) and the raw primary message.
`refError` models the `ReferenceError` on the undeclared `stack` identifier in
`findTemplateSpecialization`; `typeError` models `TypeError`s such as reading
a property of `undefined`; `outOfFuel` is the embedding's fuel sentinel. -/
inductive JsErr where
  | parserError (index : Option Int) (msg : String)
  | typeError
  | refError
  | rangeError
  | jsError (msg : String)
  | outOfFuel
deriving Repr, DecidableEq

/-- `parenInfo` of a `function` node. -/
structure ParenInfo where
  startIndex : Option Int
  endIndex : Option Int
  verticalBar : Bool
deriving Repr, DecidableEq

/-- The dynamic token/node records of the source, as one tagged sum. Every
record carries `index` and (possibly absent) `endIndex`; tokens are emitted
with `endIndex = none` and tree passes fill fields in. Constructor names match
the `type` strings of the source (`var` stands for `variable`, a Lean
keyword; `undef` is a JavaScript `undefined` stored in a token array). -/
inductive PN where
  | number (index endIndex : Option Int) (value : String)
  | string (index endIndex : Option Int) (contents : String) (quote : Option Nat)
      (src : String)
  | var (index endIndex : Option Int) (name : String)
  | comma (index endIndex : Option Int)
  | paren (index endIndex : Option Int) (paren : String) (pID : Int)
      (opening : Option Bool)
  | function_token (index endIndex : Option Int) (name : String)
  | operator_token (index endIndex : Option Int) (op : String) (implicit : Bool)
  | property_access (index endIndex : Option Int) (prop : String)
  | colon (index endIndex : Option Int)
  | typename (index endIndex : Option Int) (typename : String) (implicit : Bool)
  | arrow_function_token (index endIndex : Option Int)
  | node (index endIndex : Option Int) (parenType : String) (children : List PN)
  | function (index endIndex : Option Int) (name : String) (parenInfo : ParenInfo)
      (children : List PN)
  | operator (index endIndex : Option Int) (op : String) (implicit : Option Bool)
      (children : List PN)
  | type_annotation (index endIndex : Option Int) (children : List PN)
  | arrow_function (index endIndex : Option Int) (signature : PN) (arrowIndex : Option Int)
      (children : List PN)
  | arrow_signature (index endIndex : Option Int) (vars : List PN) (types : List PN)
      (returnType : Option PN)
  | undef
deriving Repr

namespace PN

/-- The `type` string of a record (`"undefined"` for `undef`; reading `.type`
of an actual `undefined` element is handled at each use site). -/
def typeOf : PN → String
  | number .. => "number"
  | string .. => "string"
  | var .. => "variable"
  | comma .. => "comma"
  | paren .. => "paren"
  | function_token .. => "function_token"
  | operator_token .. => "operator_token"
  | property_access .. => "property_access"
  | colon .. => "colon"
  | typename .. => "typename"
  | arrow_function_token .. => "arrow_function_token"
  | node .. => "node"
  | function .. => "function"
  | operator .. => "operator"
  | type_annotation .. => "type_annotation"
  | arrow_function .. => "arrow_function"
  | arrow_signature .. => "arrow_signature"
  | undef => "undefined"

/-- The `index` field. -/
def indexOf : PN → Option Int
  | number i _ _ => i
  | string i _ _ _ _ => i
  | var i _ _ => i
  | comma i _ => i
  | paren i _ _ _ _ => i
  | function_token i _ _ => i
  | operator_token i _ _ _ => i
  | property_access i _ _ => i
  | colon i _ => i
  | typename i _ _ _ => i
  | arrow_function_token i _ => i
  | node i _ _ _ => i
  | function i _ _ _ _ => i
  | operator i _ _ _ _ => i
  | type_annotation i _ _ => i
  | arrow_function i _ _ _ _ => i
  | arrow_signature i _ _ _ _ => i
  | undef => none

/-- The `endIndex` field. -/
def endIndexOf : PN → Option Int
  | number _ e _ => e
  | string _ e _ _ _ => e
  | var _ e _ => e
  | comma _ e => e
  | paren _ e _ _ _ => e
  | function_token _ e _ => e
  | operator_token _ e _ _ => e
  | property_access _ e _ => e
  | colon _ e => e
  | typename _ e _ _ => e
  | arrow_function_token _ e => e
  | node _ e _ _ => e
  | function _ e _ _ _ => e
  | operator _ e _ _ _ => e
  | type_annotation _ e _ => e
  | arrow_function _ e _ _ _ => e
  | arrow_signature _ e _ _ _ => e
  | undef => none

/-- The `children` field: `some` exactly for the record kinds that carry a
children array in the source. -/
def childrenOf : PN → Option (List PN)
  | node _ _ _ cs => some cs
  | function _ _ _ _ cs => some cs
  | operator _ _ _ _ cs => some cs
  | type_annotation _ _ cs => some cs
  | arrow_function _ _ _ _ cs => some cs
  | _ => none

/-- Replace the `children` array (identity on records without one). -/
def setChildren : PN → List PN → PN
  | node i e pt _, cs => node i e pt cs
  | function i e nm pi _, cs => function i e nm pi cs
  | operator i e op imp _, cs => operator i e op imp cs
  | type_annotation i e _, cs => type_annotation i e cs
  | arrow_function i e sg ai _, cs => arrow_function i e sg ai cs
  | n, _ => n

/-- Set the `index` field. -/
def setIndex : PN → Option Int → PN
  | number _ e v, i => number i e v
  | string _ e c q sr, i => string i e c q sr
  | var _ e nm, i => var i e nm
  | comma _ e, i => comma i e
  | paren _ e p pid o, i => paren i e p pid o
  | function_token _ e nm, i => function_token i e nm
  | operator_token _ e op im, i => operator_token i e op im
  | property_access _ e p, i => property_access i e p
  | colon _ e, i => colon i e
  | typename _ e tn im, i => typename i e tn im
  | arrow_function_token _ e, i => arrow_function_token i e
  | node _ e pt cs, i => node i e pt cs
  | function _ e nm pi cs, i => function i e nm pi cs
  | operator _ e op im cs, i => operator i e op im cs
  | type_annotation _ e cs, i => type_annotation i e cs
  | arrow_function _ e sg ai cs, i => arrow_function i e sg ai cs
  | arrow_signature _ e vs ts rt, i => arrow_signature i e vs ts rt
  | undef, _ => undef

/-- Set the `endIndex` field. -/
def setEndIndex : PN → Option Int → PN
  | number i _ v, e => number i e v
  | string i _ c q sr, e => string i e c q sr
  | var i _ nm, e => var i e nm
  | comma i _, e => comma i e
  | paren i _ p pid o, e => paren i e p pid o
  | function_token i _ nm, e => function_token i e nm
  | operator_token i _ op im, e => operator_token i e op im
  | property_access i _ p, e => property_access i e p
  | colon i _, e => colon i e
  | typename i _ tn im, e => typename i e tn im
  | arrow_function_token i _, e => arrow_function_token i e
  | node i _ pt cs, e => node i e pt cs
  | function i _ nm pi cs, e => function i e nm pi cs
  | operator i _ op im cs, e => operator i e op im cs
  | type_annotation i _ cs, e => type_annotation i e cs
  | arrow_function i _ sg ai cs, e => arrow_function i e sg ai cs
  | arrow_signature i _ vs ts rt, e => arrow_signature i e vs ts rt
  | undef, _ => undef

end PN

/-- Recursion fuel for `findTemplateSpecialization`: the scan position
advances on every loop iteration and every recursive call, so this bound is
never reached on any input. -/
def templateFuel (s : String) : Nat := 2 * s.length + 4

mutual

/-- `findTemplateSpecialization`: recognizer for `::<...>` template
specializations. After the opening `::<`, the body is scanned by `ftsLoop`.
As in the source, the only non-error outcome is `none` (the token is not a
template specialization): closing the outermost angle bracket evaluates
`stack.length` on the undeclared identifier `stack`, raising a
`ReferenceError` (`JsErr.refError`). -/
def findTemplateSpecialization (s : String) (mtd : Nat) :
    Nat → Nat → Option Nat → Nat → Except JsErr (Option Nat)
  | 0, _, _, _ => .error .outOfFuel
  | fuel + 1, startIndex, charCode, currentDepth =>
    if charCode ≠ some 58 then .ok none
    else
      match codeAt s (startIndex + 1) with
      | some 58 =>
        if codeAt s (startIndex + 2) = some 60 then
          ftsLoop s mtd fuel currentDepth (startIndex + 2) none false
        else .error (.parserError (some (startIndex + 2)) "Expected < for template specialization")
      | some 60 => .error (.parserError (some (startIndex + 1)) "Unexpected <")
      | _ => .ok none

/-- The labelled `main:` loop of `findTemplateSpecialization`; state is
`(i, correspondingIndex, expectingType)`. -/
def ftsLoop (s : String) (mtd : Nat) :
    Nat → Nat → Nat → Option Nat → Bool → Except JsErr (Option Nat)
  | 0, _, _, _, _ => .error .outOfFuel
  | fuel + 1, currentDepth, i, corr, expT =>
    if i < s.length then
      match codeAt s i with
      | some 60 =>
        if expT then .error (.parserError (some i) "Expected type, found opening angle bracket")
        else if currentDepth > mtd then
          .error (.parserError (some i) ("Max template depth of " ++ toString mtd ++ " exceeded"))
        else ftsLoop s mtd fuel currentDepth (i + 1) (some i) true
      | some 62 =>
        if expT then .error (.parserError (some i) "Expected type, found closing angle bracket")
        else
          match corr with
          | some _ => .error .refError
          | none => .error (.parserError (some i) "Unbalanced angle brackets in template specialization")
      | some 44 =>
        if expT then .error (.parserError (some i) "Expected type, found comma")
        else ftsLoop s mtd fuel currentDepth (i + 1) corr true
      | c =>
        if isWhitespaceO c then ftsLoop s mtd fuel currentDepth (i + 1) corr expT
        else if expT then
          match findSimpleVariableToken s i c with
          | none => .error (.parserError (some i) "Expected type")
          | some typeToken =>
            if codeAt s typeToken = some 60 then
              .error (.parserError (some typeToken) "Unexpected token")
            else
              match findTemplateSpecialization s mtd fuel typeToken (codeAt s typeToken)
                  (currentDepth + 1) with
              | .error e => .error e
              | .ok spec => ftsLoop s mtd fuel currentDepth ((spec.getD typeToken) - 1 + 1) corr false
        else .error (.parserError (some i) "Unexpected token")
    else
      match corr with
      | some _ => .error (.parserError (some s.length) "Unbalanced angle brackets in template specialization")
      | none => .ok (some i)

end

/-- Result of one iteration of `simpleTokenizer`'s main loop: input exhausted,
one token emitted (with the new `currentIndex` and `expectingTypename`), or an
error thrown. -/
inductive TokStep where
  | done
  | emit (t : PN) (ni : Nat) (ne : Bool)
  | fail (e : JsErr)
deriving Repr

/-- The single-character-token switch of `simpleTokenizer` (`(`, `)`, `[`,
`]`, `|` and `,`). -/
def singleCharToken (c : Nat) (ci : Nat) : Option PN :=
  match c with
  | 40 => some (PN.paren (some ci) none "(" (-1) none)
  | 41 => some (PN.paren (some ci) none ")" (-1) none)
  | 91 => some (PN.paren (some ci) none "[" (-1) none)
  | 93 => some (PN.paren (some ci) none "]" (-1) none)
  | 124 => some (PN.paren (some ci) none "|" (-1) none)
  | 44 => some (PN.comma (some ci) none)
  | _ => none

/-- One iteration of `simpleTokenizer`'s main loop after the whitespace skip,
positioned at `p` with `expectingTypename = exp`: the token kinds are tried in
the source's order (single characters, variable/typename/function, the
`checkTypenameExpected` guard, colon, string, number, property access, arrow,
operator, and finally the "Unrecognized token" error). -/
def tokStepCore (s : String) (mtd : Nat) (p : Nat) (exp : Bool) : TokStep :=
  if p ≥ s.length then .done
  else
    match singleCharToken ((codeAt s p).getD 0) p with
    | some t =>
      if exp then .fail (.parserError (some p) "Expected typename")
      else .emit t (p + 1) false
    | none =>
      match findVariableToken s p (codeAt s p) with
      | some ti =>
        match findTemplateSpecialization s mtd (templateFuel s) ti (codeAt s ti) 0 with
        | .error e => .fail e
        | .ok templ =>
          if codeAt s (templ.getD ti) = some 40 then
            if exp then
              .fail (.parserError (some (templ.getD ti)) "Expected typename, found function")
            else .emit (PN.function_token (some p) none (jsSlice s p (templ.getD ti)))
              (templ.getD ti) false
          else
            if templ.isSome then
              if !exp then .fail (.parserError (some p) "Unexpected typename")
              else .emit (PN.typename (some p) none (jsSlice s p (templ.getD ti)) false)
                (templ.getD ti) false
            else if exp then
              .emit (PN.typename (some p) none (jsSlice s p (templ.getD ti)) false)
                (templ.getD ti) false
            else .emit (PN.var (some p) none (jsSlice s p (templ.getD ti))) (templ.getD ti) false
      | none =>
        if exp then .fail (.parserError (some p) "Expected typename")
        else if codeAt s p = some 58 then .emit (PN.colon (some p) none) (p + 1) true
        else
          match findStringToken s p (codeAt s p) with
          | some ti =>
            .emit (PN.string (some p) none (jsSlice s (p + 1) (ti - 1))
              (some (if codeAt s p = some 34 then 0 else 1)) "string") ti false
          | none =>
            match findNumericToken s p with
            | some ti => .emit (PN.number (some p) none (jsSlice s p ti)) ti false
            | none =>
              match findPropertyAccessToken s p (codeAt s p) with
              | some ti => .emit (PN.property_access (some p) none (jsSlice s (p + 1) ti)) ti false
              | none =>
                match findArrowFunctionToken s p (codeAt s p) with
                | some ti => .emit (PN.arrow_function_token (some p) none) ti false
                | none =>
                  match findOperatorToken s p with
                  | some ti =>
                    .emit (PN.operator_token (some p) none
                      (simpleOperatorsLookup (jsSlice s p ti)) false) ti false
                  | none => .fail (.parserError (some p) "Unrecognized token")

/-- One iteration of `simpleTokenizer`'s main loop, starting at `ci`: skip
whitespace, then scan one token. -/
def tokStep (s : String) (mtd : Nat) (ci : Nat) (exp : Bool) : TokStep :=
  tokStepCore s mtd (skipWs s ci) exp

/-- The fueled main loop of `simpleTokenizer`, accumulating emitted tokens. -/
def tokLoop (s : String) (mtd : Nat) :
    Nat → Nat → Bool → List PN → Except JsErr (List PN)
  | 0, _, _, _ => .error .outOfFuel
  | fuel + 1, ci, exp, acc =>
    match tokStep s mtd ci exp with
    | .done => .ok acc
    | .fail e => .error e
    | .emit t ni ne => tokLoop s mtd fuel ni ne (acc ++ [t])

/-- `simpleTokenizer`: every loop iteration advances `currentIndex` by at
least one, so `s.length + 1` iterations always suffice. -/
def simpleTokenizer (s : String) (mtd : Nat) : Except JsErr (List PN) :=
  if mtd > 512 then .error .rangeError
  else tokLoop s mtd (s.length + 1) 0 false []

/-- `parenToDescriptor` (plural form, as used by the unbalanced-paren error). -/
def parenToDescriptorPlural (p : String) : String :=
  if p = "(" ∨ p = ")" then "parentheses"
  else if p = "[" ∨ p = "]" then "brackets"
  else if p = "|" then "vertical bars"
  else ""

/-- `checkParensBalanced`: assigns `pID` and `opening` to every paren token
and rejects imbalance. The stack holds flat `(kind, id)` pairs exactly as the
source pushes them (`1` for `(`, `2` for `[`, `3` for `|`), with the array top
at the list head. `prev` is the previously processed token (`tokens[i-1]`,
already carrying its `opening` flag), threaded through the fold. -/
def cpbGo (s : String) : List PN → List Int → Int → Option PN → List PN →
    Except JsErr (List PN)
  | [], stack, _, _, out =>
    if stack ≠ [] then
      .error (.parserError (some s.length) "Unbalanced parentheses/brackets/vertical bars")
    else .ok out
  | t :: rest, stack, id, prev, out =>
    match t with
    | PN.undef => .error .typeError
    | PN.paren i e p _ _ =>
      match p with
      | "(" =>
        cpbGo s rest (1 :: (id + 1) :: stack) (id + 1) (some (PN.paren i e p (id + 1) (some true)))
          (out ++ [PN.paren i e p (id + 1) (some true)])
      | "[" =>
        cpbGo s rest (2 :: (id + 1) :: stack) (id + 1) (some (PN.paren i e p (id + 1) (some true)))
          (out ++ [PN.paren i e p (id + 1) (some true)])
      | "|" =>
        let pushBar : Bool :=
          if stack.head? = some 3 then
            match prev with
            | some (PN.paren _ _ pp _ po) => pp == "|" && po.getD false
            | some (PN.operator_token _ _ _ _) => true
            | _ => false
          else true
        if pushBar then
          cpbGo s rest (3 :: (id + 1) :: stack) (id + 1)
            (some (PN.paren i e p (id + 1) (some true)))
            (out ++ [PN.paren i e p (id + 1) (some true)])
        else
          let lastId := (stack.drop 1).headD 0
          cpbGo s rest (stack.drop 2) id (some (PN.paren i e p lastId (some false)))
            (out ++ [PN.paren i e p lastId (some false)])
      | ")" =>
        if stack.head? = some 1 then
          let lastId := (stack.drop 1).headD 0
          cpbGo s rest (stack.drop 2) id (some (PN.paren i e p lastId (some false)))
            (out ++ [PN.paren i e p lastId (some false)])
        else .error (.parserError i ("Unbalanced " ++ parenToDescriptorPlural p))
      | "]" =>
        if stack.head? = some 2 then
          let lastId := (stack.drop 1).headD 0
          cpbGo s rest (stack.drop 2) id (some (PN.paren i e p lastId (some false)))
            (out ++ [PN.paren i e p lastId (some false)])
        else .error (.parserError i ("Unbalanced " ++ parenToDescriptorPlural p))
      | _ => cpbGo s rest stack id (some t) (out ++ [t])
    | _ => cpbGo s rest stack id (some t) (out ++ [t])

/-- `checkParensBalanced` entry point. -/
def checkParensBalanced (s : String) (tokens : List PN) : Except JsErr (List PN) :=
  cpbGo s tokens [] 0 none []

/-- `isOpenParen`: `(` opens, `|` opens when its `opening` flag is truthy; `[`
deliberately does not count (so `arr [3]` stays a subscript). -/
def isOpenParen : PN → Bool
  | PN.paren _ _ p _ o => p == "(" || (p == "|" && o.getD false)
  | _ => false

/-- `isCloseParen`: `)` and `]` close, `|` closes when its `opening` flag is
falsy. -/
def isCloseParen : PN → Bool
  | PN.paren _ _ p _ o => p == ")" || p == "]" || (p == "|" && !(o.getD false))
  | _ => false

/-- Condition under which the implicit-multiplication block inserts a `*`
between the adjacent tokens `t1 t2`. -/
def implicitMultCondition (t1 t2 : PN) : Bool :=
  (t1.typeOf == "number" || t1.typeOf == "variable" ||
      (t1.typeOf == "paren" && isCloseParen t1)) &&
    ((t2.typeOf == "paren" && isOpenParen t2) ||
      t2.typeOf == "number" || t2.typeOf == "variable" || t2.typeOf == "function_token")

/-- The implicit-multiplication block of `expressionTokenizer`. On an empty
token list the source pushes `tokens[0]`, i.e. `undefined`, yielding the
one-element array `[undefined]` (modelled by `[PN.undef]`). -/
def insertImplicitMult (tokens : List PN) : List PN :=
  match tokens with
  | [] => [PN.undef]
  | t :: rest => insertImplicitMultGo t rest
where
  /-- The `for` loop over adjacent pairs, `t` being `token1` of the pair. -/
  insertImplicitMultGo (t : PN) : List PN → List PN
    | [] => [t]
    | t2 :: rest =>
      t ::
        (if implicitMultCondition t t2 then
          [PN.operator_token ((t2.indexOf).map (· - 1)) none "*" true]
        else []) ++ insertImplicitMultGo t2 rest

/-- Options of `parseString` and `expressionTokenizer`, with the defaults the
source merges in. -/
structure ParseOptions where
  implicitMultiplication : Bool := true
  maxTemplateDepth : Nat := 16
  maxExpressionDepth : Option Nat := none
deriving Repr

/-- `expressionTokenizer`: tokenize, balance, then optionally insert implicit
multiplication operators. -/
def expressionTokenizer (s : String) (options : ParseOptions) : Except JsErr (List PN) := do
  let tokens ← simpleTokenizer s options.maxTemplateDepth
  let tokens ← checkParensBalanced s tokens
  if options.implicitMultiplication then
    return insertImplicitMult tokens
  else
    return tokens

/-- `couldBePrefixOp` of `part_006`. -/
def couldBePrefixOp (op : String) : Bool := op == "-" || op == "+"

/-- `couldBePostfixOp` of `part_006`. -/
def couldBePostfixOp (op : String) : Bool := op == "!" || op == "!!"

/-- `checkIfValidOperand`: every record is a valid operand except the listed
token kinds (note that `typename` is not in the source's list). -/
def checkIfValidOperand (n : PN) : Bool :=
  match n.typeOf with
  | "comma" => false
  | "paren" => false
  | "function_token" => false
  | "operator_token" => false
  | "property_access" => false
  | "arrow_function_token" => false
  | "colon" => false
  | _ => true

/-- `capitalizeFirstLetter`. -/
def capitalizeFirstLetter (s : String) : String :=
  match s.data with
  | [] => s
  | c :: rest => ⟨c.toUpper :: rest⟩

/-- `getStartingIndex`: `node.index ?? node.children[0].index`. Reading the
first child of an empty children array yields `undefined`, whose `.index`
access throws a `TypeError`; a record with neither `index` nor children gives
the source's `NaN`, modelled as `none`. -/
def getStartingIndex (n : PN) : Except JsErr (Option Int) :=
  match n.indexOf with
  | some i => .ok (some i)
  | none =>
    match n.childrenOf with
    | some (c :: _) => .ok c.indexOf
    | some [] => .error .typeError
    | none => .ok none

/-- `getEndingIndex` on a single record. The `endIndex` field wins; then the
last child is consulted; then the per-kind arithmetic of the source's
`switch`. The `default` branch throws a `TypeError`; an unknown string `src`
throws a plain `Error`. -/
def getEndingIndex (s : String) : Nat → PN → Except JsErr (Option Int)
  | 0, _ => .error .outOfFuel
  | fuel + 1, n =>
    match n.endIndexOf with
    | some e => .ok (some e)
    | none =>
      match n.childrenOf with
      | some cs =>
        match cs.getLast? with
        | some c => getEndingIndex s fuel c
        | none => .error .typeError
      | none =>
        match n with
        | PN.comma i _ => .ok i
        | PN.paren i _ _ _ _ => .ok i
        | PN.colon i _ => .ok i
        | PN.function_token i _ nm => .ok (i.map (· + nm.length - 1))
        | PN.var i _ nm => .ok (i.map (· + nm.length - 1))
        | PN.number i _ v => .ok (i.map (· + v.length - 1))
        | PN.operator_token i _ op _ => .ok (i.map (· + op.length - 1))
        | PN.property_access i _ p => .ok (i.map (· + p.length))
        | PN.string i _ c _ src =>
          if src = "string" then .ok (i.map (· + c.length + 1))
          else if src = "property_access" ∨ src = "operator" then
            .ok (i.map (· + c.length - 1))
          else .error (.jsError ("Unknown string source " ++ src))
        | PN.typename i _ tn _ => .ok (i.map (· + tn.length - 1))
        | PN.arrow_function_token i _ => .ok (i.map (· + 1))
        | _ => .error .typeError

/-- `getEndingIndex` applied to an array, which the source wraps as
`{children: arr}` before recursing into the last element. -/
def getEndingIndexList (s : String) (fuel : Nat) (cs : List PN) :
    Except JsErr (Option Int) :=
  match cs.getLast? with
  | some c => getEndingIndex s fuel c
  | none => .error .typeError

/-- `parenthesizeString`. -/
def parenthesizeString (paren : String) (str : String) : String :=
  if paren = "(" ∨ paren = ")" then "(" ++ str ++ ")"
  else if paren = "[" ∨ paren = "]" then "[" ++ str ++ "]"
  else if paren = "|" then "|" ++ str ++ "|"
  else str

mutual

/-- `nodeToString` of `part_006`. The `string` case reads `string.quote` on
the undeclared identifier `string` and so raises a `ReferenceError`; the
`arrow_function` case reads the nonexistent field `node.arguments` and so
calls `nodeToString(undefined)`, raising a `TypeError`; a `null` returnType in
the `arrow_signature` case likewise raises a `TypeError`. -/
def nodeToString (s : String) : Nat → PN → Except JsErr String
  | 0, _ => .error .outOfFuel
  | fuel + 1, n =>
    match n with
    | PN.comma _ _ => .ok ", "
    | PN.function _ _ nm _ cs => do
      let inner ← nodeToStringList s fuel cs
      .ok (nm ++ parenthesizeString "(" inner)
    | PN.function_token _ _ nm => .ok nm
    | PN.var _ _ nm => .ok nm
    | PN.node _ _ pt cs => do
      let inner ← nodeToStringList s fuel cs
      .ok (parenthesizeString pt inner)
    | PN.number _ _ v => .ok v
    | PN.operator _ _ op _ cs =>
      match cs with
      | [c] => do
        let inner ← nodeToString s fuel c
        if couldBePostfixOp op then .ok (inner ++ op) else .ok (op ++ inner)
      | [c1, c2] => do
        let s1 ← nodeToString s fuel c1
        let s2 ← nodeToString s fuel c2
        .ok (s1 ++ op ++ s2)
      | _ => .error (.jsError "Operator somehow has arity that is not one or two??")
    | PN.type_annotation _ _ cs =>
      match cs with
      | [c1, c2] => do
        let s1 ← nodeToString s fuel c1
        let s2 ← nodeToString s fuel c2
        .ok (s1 ++ ": " ++ s2)
      | _ => .error .typeError
    | PN.arrow_function _ _ _ _ _ => .error .typeError
    | PN.arrow_signature _ _ _ _ _ => .error .typeError
    | PN.typename _ _ tn _ => .ok tn
    | PN.operator_token _ _ op _ => .ok op
    | PN.property_access _ _ p => .ok ("." ++ p)
    | PN.paren _ _ p _ _ => .ok p
    | PN.string _ _ _ _ _ => .error .refError
    | PN.arrow_function_token _ _ => .ok "->"
    | PN.colon _ _ => .ok ":"
    | PN.undef => .error .typeError

/-- `node.children.map(nodeToString).join('')`. -/
def nodeToStringList (s : String) : Nat → List PN → Except JsErr String
  | 0, _ => .error .outOfFuel
  | _, [] => .ok ""
  | fuel + 1, c :: rest => do
    let h ← nodeToString s fuel c
    let t ← nodeToStringList s fuel rest
    .ok (h ++ t)

end

/-- `splitByFunction`: split an array at (and dropping) the elements
satisfying `f`, discarding empty groups. -/
def splitByFunction (f : PN → Bool) (arr : List PN) : List (List PN) :=
  go arr []
where
  go : List PN → List PN → List (List PN)
    | [], curr => if curr.isEmpty then [] else [curr]
    | e :: rest, curr =>
      if f e then (if curr.isEmpty then [] else [curr]) ++ go rest []
      else go rest (curr ++ [e])

/-- `processFunctionArguments`: split the contents of a call's paren node
across commas; singleton groups stay bare, larger groups are wrapped in a
synthetic `node` with empty `parenType`. -/
def processFunctionArguments (s : String) (fuel : Nat) (arr : List PN) :
    Except JsErr (List PN) :=
  if arr.isEmpty then .ok []
  else
    (splitByFunction (fun n => n.typeOf == "comma") arr).mapM fun subnode =>
      match subnode with
      | [] => .error (.parserError none "This should never happen.")
      | [single] => .ok single
      | first :: _ => do
        let e ← getEndingIndexList s fuel subnode
        .ok (PN.node first.indexOf e "" subnode)

/-- Flattening of a fetched array element: a fetched `undefined` element
behaves exactly like an out-of-range fetch under the `tok?.type` and `!tok`
tests of the source. -/
def flat : Option PN → Option PN
  | some PN.undef => none
  | o => o

/-- The `type` of a possibly-absent token, as `tok?.type` computes it. -/
def typeOfO (o : Option PN) : Option String :=
  (flat o).map PN.typeOf

/-- The help strings of `parseString` are not modelled; the primary messages
below are the source's first `errorInString` arguments, verbatim. This is the
callback of the Step 2 `pairwise` scan. -/
def step2Pair (t1o t2o : Option PN) : Except JsErr Unit := do
  let tok1 := flat t1o
  let tok2 := flat t2o
  let type1 := typeOfO t1o
  let type2 := typeOfO t2o
  -- 2a. operator followed by non-unary operator or closing parenthesis
  if type1 = some "operator_token" then
    if type2 = some "operator_token" then
      match tok2 with
      | some (PN.operator_token i _ op _) =>
        if !couldBePrefixOp op then
          throw (.parserError i "Operator followed by non-unary operator")
      | _ => pure ()
    else
      match tok1, tok2 with
      | some (PN.operator_token i1 _ op1 _), some (PN.paren _ _ _ _ opening) =>
        if type2 = some "paren" ∧ !couldBePrefixOp op1 then
          if !(opening.getD false) then
            throw (.parserError i1 "Operator immediately followed by closing parenthesis")
      | _, _ => pure ()
  -- 2b. non-unary operator after an opener, after a comma, or at the start
  match tok2 with
  | some (PN.operator_token i2 _ op2 _) =>
    if !couldBePrefixOp op2 then
      if tok1.isNone then
        throw (.parserError i2 "Non-unary operator starting an expression")
      else
        match tok1 with
        | some (PN.paren _ _ _ _ opening) =>
          if opening.getD false then
            throw (.parserError i2 "Non-unary operator starting a parenthesized subexpression")
        | some (PN.comma _ _) =>
          throw (.parserError i2 "Non-unary operator starting a subexpression")
        | _ => pure ()
  | _ => pure ()
  -- 2c. non-postfix operator before a closer, before a comma, or at the end
  match tok1 with
  | some (PN.operator_token i1 _ op1 _) =>
    if !couldBePostfixOp op1 then
      if tok2.isNone then
        throw (.parserError i1 "Trailing operator at end of expression")
      else
        match tok2 with
        | some (PN.paren _ _ _ _ opening) =>
          if !(opening.getD false) then
            throw (.parserError i1 "Trailing operator at end of parenthesized subexpression")
        | some (PN.comma _ _) =>
          throw (.parserError i1 "Trailing operator at end of subexpression")
        | _ => pure ()
  | _ => pure ()
  -- 2d. no comma at the start of an expression or subexpression, no doubled comma
  if type2 = some "comma" then
    match tok2 with
    | some (PN.comma i2 _) =>
      if tok1.isNone then
        throw (.parserError i2 "Comma at start of expression")
      else
        match tok1 with
        | some (PN.paren _ _ _ _ opening) =>
          if opening.getD false then
            throw (.parserError i2 "Comma at start of parenthesized subexpression")
        | some (PN.comma _ _) =>
          throw (.parserError i2 "Consecutive commas (empty subexpression)")
        | _ => pure ()
    | _ => pure ()
  -- 2e. no comma at the end (the source tests `!tok1.opening` on the comma
  -- itself, which is always truthy, so any following paren token triggers it)
  if type1 = some "comma" then
    match tok1 with
    | some (PN.comma i1 _) =>
      if tok2.isNone then
        throw (.parserError i1 "Comma at end of expression")
      else if type2 = some "paren" then
        throw (.parserError i1 "Comma at end of parenthesized subexpression")
    | _ => pure ()
  -- 2f. no property access after an opener, at the start, after a comma or
  -- after an operator
  if type2 = some "property_access" then
    match tok2 with
    | some (PN.property_access i2 _ _) =>
      if tok1.isNone ∨ type1 = some "comma" ∨ type1 = some "operator_token" then
        throw (.parserError i2 "Property access on nothing")
      else
        match tok1 with
        | some (PN.paren _ _ _ _ opening) =>
          if opening.getD false then
            throw (.parserError i2 "Property access on nothing")
        | _ => pure ()
    | _ => pure ()

/-- The Step 2 `pairwise` scan with `includeEnds = true`: pairs
`(nil, t0), (t0, t1), ..., (tlast, nil)`. -/
def step2Checks (tokens : List PN) : Except JsErr Unit :=
  go none tokens
where
  go (prev : Option PN) : List PN → Except JsErr Unit
    | [] => step2Pair prev none
    | t :: rest => do
      step2Pair prev (some t)
      go (some t) rest

/-- Step 3: collapse parenthesized expressions. `locs` maps a `pID` to the
position in `newTokens` where its subexpression starts together with the
opening token itself (the source stores the position of the opener in the
original token array and re-reads it; the array is not mutated in between, so
storing the token is equivalent). Reading `.type` of an `undefined` array
element (the empty-input artifact of implicit multiplication) throws. -/
def step3Parenthesize (s : String) :
    List PN → List (Int × Nat × PN) → List PN → Except JsErr (List PN)
  | [], _, newTokens => .ok newTokens
  | t :: rest, locs, newTokens =>
    match t with
    | PN.undef => .error .typeError
    | PN.paren i _ _ pid opening =>
      if opening.getD false then
        step3Parenthesize s rest ((pid, newTokens.length, t) :: locs) newTokens
      else
        match locs.find? (fun l => l.1 == pid) with
        | none => .error (.parserError i "Unbalanced parenthesis/brackets/vertical bars")
        | some (_, ntIndex, startingToken) =>
          let tokensBetween := newTokens.drop ntIndex
          let nd := PN.node startingToken.indexOf i
            (match startingToken with
              | PN.paren _ _ sp _ _ => sp
              | _ => "") tokensBetween
          step3Parenthesize s rest (locs.eraseP (fun l => l.1 == pid))
            (newTokens.take ntIndex ++ [nd])
    | _ => step3Parenthesize s rest locs (newTokens ++ [t])

/-- Step 4 child replacement: a `node` child with `parenType` `|` becomes an
`abs` function node with `parenInfo.verticalBar = true` and the same
children. -/
def vbarReplace : PN → PN
  | PN.node i e "|" cs => PN.function i e "abs" ⟨i, e, true⟩ cs
  | c => c

/-- Step 4: pre-order walk (`applyToNodesRecursively` with
`childrenFirst = false`, `onlyNodesWithChildren = true`); each visited node has
its direct `|`-children replaced, and the walk then descends into the
replacement's (unchanged) children. -/
def step4run : Nat → PN → PN
  | 0, n => n
  | fuel + 1, n =>
    match n.childrenOf with
    | none => n
    | some cs => n.setChildren ((cs.map vbarReplace).map (step4run fuel))

/-- Step 5 pairwise collapse of `function_token` followed by a `node` (the
`pairwise` walk with `skipNextPair`); a `function_token` not followed by a
`node` is an error. -/
def collapseFnPairs (s : String) (fuel : Nat) : List PN → Except JsErr (List PN)
  | [] => .ok []
  | PN.function_token i _ nm :: rest =>
    match rest with
    | PN.node ni ne _ ncs :: rest' => do
      let args ← processFunctionArguments s fuel ncs
      let newNode := PN.function i ne nm ⟨ni, ne, false⟩ args
      let tail ← collapseFnPairs s fuel rest'
      .ok (newNode :: tail)
    | _ =>
      .error (.parserError i "Function declaration without corresponding arguments in parentheses")
  | c :: rest => do
    let tail ← collapseFnPairs s fuel rest
    .ok (c :: tail)

/-- Step 5: post-order walk; within each node whose children contain a
`function_token`, collapse `function_token`/`node` pairs. -/
def step5run (s : String) : Nat → PN → Except JsErr PN
  | 0, _ => .error .outOfFuel
  | fuel + 1, n =>
    match n.childrenOf with
    | none => .ok n
    | some cs => do
      let cs' ← cs.mapM (step5run s fuel)
      if cs'.any (fun c => c.typeOf == "function_token") then
        let cs'' ← collapseFnPairs s fuel cs'
        .ok (n.setChildren cs'')
      else .ok (n.setChildren cs')

/-- Step 6 rebuild of one child list: walking pairs `(children[i],
children[i+1])` from `i = -1`, a `property_access` at `i+1` pops the
previously pushed child and pushes the `.` operator node (created without
`index`, `endIndex` or `implicit`). `prev` is `children[i]` (the original
element), while the pop acts on the rebuilt list. -/
def paCollapse (cs : List PN) : Except JsErr (List PN) :=
  go none cs []
where
  go (prev : Option PN) : List PN → List PN → Except JsErr (List PN)
    | [], acc => .ok acc
    | c2 :: rest, acc =>
      match c2 with
      | PN.property_access i _ prop =>
        if (flat prev).isNone then
          .error (.parserError i "Property access on nothing")
        else
          let lastChild := (acc.getLast?).getD PN.undef
          let newOp := PN.operator none none "." none
            [lastChild,
              PN.string (i.map (· + 1)) (i.map (· + prop.length)) prop none "property_access"]
          go (some c2) rest (acc.dropLast ++ [newOp])
      | _ => go (some c2) rest (acc ++ [c2])

/-- Step 6: pre-order walk; each node whose children contain a
`property_access` has its child list rebuilt by `paCollapse`, and the walk
then descends into the new children. -/
def step6run : Nat → PN → Except JsErr PN
  | 0, _ => .error .outOfFuel
  | fuel + 1, n =>
    match n.childrenOf with
    | none => .ok n
    | some cs => do
      let cs' ←
        if cs.any (fun c => c.typeOf == "property_access") then paCollapse cs
        else .ok cs
      let cs'' ← cs'.mapM (step6run fuel)
      .ok (n.setChildren cs'')

/-- JavaScript array indexing with a possibly negative index (`undefined` out
of range, and an `undefined` element reads the same as out of range). -/
def jsGet (arr : List PN) (i : Int) : Option PN :=
  if i < 0 then none
  else flat (arr.get? i.toNat)

/-- Result of one `triplewise` callback invocation: do nothing, or
`replaceWith subarr` (an absent `e1`/`e3` inside `subarr` is encoded as
`PN.undef`, matching the `undefined` the source would pass). -/
inductive TriAct where
  | keep
  | replace (subarr : List PN)

/-- `replaceWith` of `triplewise`: splice `subarr` over positions
`i-1 .. i+1` (with the special first/last-position forms of the source) and
adjust `i` when the replacement has length one. -/
def triSplice (arr : List PN) (i : Int) (subarr : List PN) : List PN × Int :=
  let arr' :=
    if i = 0 then subarr.drop 1 ++ arr.drop 2
    else if i = (arr.length : Int) - 1 then
      arr.take (arr.length - 2) ++ subarr.take 2
    else arr.take (i - 1).toNat ++ subarr ++ arr.drop (i + 2).toNat
  (arr', if subarr.length = 1 then i - 1 else i)

/-- The `triplewise` loop (`includeEnds = true`, as in all three call sites):
the callback sees `(arr[i-1], arr[i], arr[i+1])`; the left-to-right loop
bound re-reads the current array length, the right-to-left bound is `i ≥ 0`. -/
def triplewiseRun (f : Option PN → Option PN → Option PN → Except JsErr TriAct)
    (rtl : Bool) : Nat → List PN → Int → Except JsErr (List PN)
  | 0, _, _ => .error .outOfFuel
  | fuel + 1, arr, i =>
    if (if rtl then 0 ≤ i else i ≤ (arr.length : Int) - 1) then
      match f (jsGet arr (i - 1)) (jsGet arr i) (jsGet arr (i + 1)) with
      | .error e => .error e
      | .ok .keep => triplewiseRun f rtl fuel arr (if rtl then i - 1 else i + 1)
      | .ok (.replace sub) =>
        let r := triSplice arr i sub
        triplewiseRun f rtl fuel r.1 (if rtl then r.2 - 1 else r.2 + 1)
    else .ok arr

/-- Run `triplewise` over a child list with the direction's starting index
and fuel ample for the at most `2·length` iterations any run performs. -/
def triplewise (f : Option PN → Option PN → Option PN → Except JsErr TriAct)
    (arr : List PN) (rtl : Bool) : Except JsErr (List PN) :=
  triplewiseRun f rtl (2 * arr.length + 8) arr
    (if rtl then (arr.length : Int) - 1 else 0)

/-- Step 7 `triplewise` callback: `(e1, colon, e3)` collapses to a
`type_annotation` when `e1` is a `variable` or `node` and `e3` a `typename`. -/
def typeAnnotationCallback (s : String) (fuel : Nat)
    (e1o e2o e3o : Option PN) : Except JsErr TriAct :=
  match e2o with
  | none => .error .typeError
  | some e2 =>
    if e2.typeOf == "colon" then
      match e1o with
      | none => .error (.parserError e2.indexOf "Unexpected colon")
      | some e1 =>
        match e3o with
        | none => .error (.parserError e2.indexOf "Unexpected colon: missing typename")
        | some e3 =>
          if e1.typeOf ≠ "variable" ∧ e1.typeOf ≠ "node" then
            .error (.parserError e1.indexOf "Expected variable before colon")
          else if e3.typeOf ≠ "typename" then
            .error (.parserError e3.indexOf "Expected typename after colon")
          else do
            let ei ← getEndingIndex s fuel e3
            .ok (.replace [PN.type_annotation e1.indexOf ei [e1, e3]])
    else .ok .keep

/-- Step 7: post-order walk applying the type-annotation `triplewise`
(right-to-left, the `triplewise` default) to every child list. -/
def step7run (s : String) : Nat → PN → Except JsErr PN
  | 0, _ => .error .outOfFuel
  | fuel + 1, n =>
    match n.childrenOf with
    | none => .ok n
    | some cs => do
      let cs' ← cs.mapM (step7run s fuel)
      let cs'' ← triplewise (typeAnnotationCallback s fuel) cs' true
      .ok (n.setChildren cs'')

/-- One pass of operator collapsing: the operator sets and the direction. -/
structure OpPass where
  unaries : List String := []
  binaries : List String := []
  postfixes : List String := []
  rtl : Bool
deriving Repr

/-- `firstOperatorPass` of `part_006`. -/
def firstOperatorPass : List OpPass :=
  [{ postfixes := ["!", "!!"], rtl := false },
   { unaries := ["+", "-"], binaries := ["^"], rtl := true },
   { binaries := ["*", "/"], rtl := false },
   { binaries := ["+", "-"], rtl := false },
   { binaries := ["and", "or"], rtl := false }]

/-- `secondOperatorPass` of `part_006`. -/
def secondOperatorPass : List OpPass :=
  [{ binaries := ["==", "!=", "<", ">", "<=", ">="], rtl := false }]

/-- `checkOperandValid`: `checkIfValidOperand` on an absent operand reads
`.type` of `undefined` (`TypeError`); an invalid operand produces the
formatted error, whose message interpolates `nodeToString` (itself fallible). -/
def checkOperandValid (s : String) (fuel : Nat) (operator : PN) (other : Option PN)
    (kind : String) : Except JsErr Unit :=
  match other with
  | none => .error .typeError
  | some o =>
    if checkIfValidOperand o then .ok ()
    else
      match nodeToString s fuel o with
      | .error e => .error e
      | .ok str =>
        .error (.parserError operator.indexOf
          ("Can't process " ++ kind ++ " operator " ++
            (match operator with | PN.operator_token _ _ op _ => op | _ => "") ++
            " on node \"" ++ str ++ "\""))

/-- The `triplewise` callback of `doIt` for one operator pass: binary, then
unary, then postfix collapsing, mutating the `operator_token` into an
`operator` that keeps its `op`, `index` and `implicit` fields. -/
def opPassCallback (s : String) (fuel : Nat) (pass : OpPass)
    (e1o e2o e3o : Option PN) : Except JsErr TriAct :=
  match e2o with
  | none => .error .typeError
  | some e2 =>
    match e2 with
    | PN.operator_token i e op imp =>
      if pass.binaries.contains op then do
        checkOperandValid s fuel e2 e1o "binary"
        checkOperandValid s fuel e2 e3o "binary"
        match e1o, e3o with
        | some e1, some e3 =>
          .ok (.replace [PN.operator i e op (some imp) [e1, e3]])
        | _, _ => .error .typeError
      else if pass.unaries.contains op then
        if e1o.isNone ∨ typeOfO e1o = some "operator_token" ∨
            typeOfO e1o = some "operator" then do
          checkOperandValid s fuel e2 e3o "unary"
          match e3o with
          | some e3 =>
            .ok (.replace [(e1o.getD PN.undef), PN.operator i e op (some imp) [e3]])
          | none => .error .typeError
        else .ok .keep
      else if pass.postfixes.contains op then
        if e3o.isNone ∨ typeOfO e3o = some "operator_token" ∨
            typeOfO e3o = some "operator" then do
          checkOperandValid s fuel e2 e1o "postfix"
          match e1o with
          | some e1 =>
            match e3o with
            | some e3 => .ok (.replace [PN.operator i e op (some imp) [e1], e3])
            | none => .ok (.replace [PN.operator i e op (some imp) [e1]])
          | none => .error .typeError
        else .ok .keep
      else .ok .keep
    | _ => .ok .keep

/-- `doIt`: post-order walk; a node whose children contain an
`operator_token` has each configured pass's `triplewise` run over its child
list in order. -/
def doItRun (s : String) (passes : List OpPass) : Nat → PN → Except JsErr PN
  | 0, _ => .error .outOfFuel
  | fuel + 1, n =>
    match n.childrenOf with
    | none => .ok n
    | some cs => do
      let cs' ← cs.mapM (doItRun s passes fuel)
      if cs'.any (fun c => c.typeOf == "operator_token") then
        let cs'' ← passes.foldlM
          (fun arr pass => triplewise (opPassCallback s fuel pass) arr pass.rtl) cs'
        .ok (n.setChildren cs'')
      else .ok (n.setChildren cs')

/-- The parity scan of Step 8f: position `i` must hold an operator
(`operator_token` or already-collapsed `operator`) exactly when `i` is odd. -/
def cchainAlternationOk : Nat → List PN → Bool
  | _, [] => true
  | i, c :: rest =>
    (decide (i % 2 = 0) !=
        (c.typeOf == "operator_token" || c.typeOf == "operator")) &&
      cchainAlternationOk (i + 1) rest

/-- Step 8f conversion of the odd-position operators into `string` records
with `src = "operator"`. -/
def cchainConvert : Nat → List PN → List PN
  | _, [] => []
  | i, c :: rest =>
    (if i % 2 = 1 then
      match c with
      | PN.operator_token oi _ op _ =>
        PN.string oi (oi.map (· + op.length - 1)) op none "operator"
      | PN.operator oi _ op _ _ =>
        PN.string oi (oi.map (· + op.length - 1)) op none "operator"
      | _ => c
    else c) :: cchainConvert (i + 1) rest

/-- The Step 8f callback applied to one node: a child list of odd length ≥ 5
alternating operand / operator turns the node itself into the `cchain`
operator (the source mutates `type`, `op` and `implicit` in place and deletes
`parenType`). -/
def cchainStep (n : PN) : PN :=
  match n.childrenOf with
  | none => n
  | some cs =>
    if cs.length < 5 ∨ cs.length % 2 = 0 then n
    else if cchainAlternationOk 0 cs then
      PN.operator n.indexOf n.endIndexOf "cchain" (some false) (cchainConvert 0 cs)
    else n

/-- Step 8f: pre-order walk applying `cchainStep` at every node. -/
def step8frun : Nat → PN → PN
  | 0, n => n
  | fuel + 1, n =>
    let n' := cchainStep n
    match n'.childrenOf with
    | none => n'
    | some cs => n'.setChildren (cs.map (step8frun fuel))

/-- `isSimpleVariable` of `part_006`: the source's regex
`/[A-Za-z_][A-Za-z0-9_]*/` is tested with an unanchored `exec`, so the check
succeeds whenever the string contains any valid starting character. -/
def isSimpleVariable (str : String) : Bool :=
  str.data.any (fun c => isValidStartingCharacter c.toNat)

/-- The string JavaScript coerces a record's `name` field to when reading it
off a record without one (`undefined` stringifies to `"undefined"`, which the
unanchored regex accepts). -/
def nameOfOr (n : PN) : String :=
  match n with
  | PN.var _ _ nm => nm
  | PN.function_token _ _ nm => nm
  | PN.function _ _ nm _ _ => nm
  | _ => "undefined"

/-- `processArrowFunctionSignature` of `part_006`. -/
def processArrowFunctionSignature (s : String) : Nat → PN → Except JsErr PN
  | 0, _ => .error .outOfFuel
  | fuel + 1, args =>
    match args with
    | PN.var _ _ _ => do
      let argsEnd ← getEndingIndex s fuel args
      let typeInfoIndex := argsEnd.map (· + 1)
      .ok (PN.arrow_signature args.indexOf (typeInfoIndex.map (· - 1)) [args]
        [PN.typename typeInfoIndex typeInfoIndex "real" true] none)
    | PN.type_annotation _ _ cs =>
      match cs with
      | [realArgs, rType] =>
        if realArgs.typeOf ≠ "node" then
          .error (.parserError realArgs.indexOf "Invalid argument list")
        else do
          let ret ← processArrowFunctionSignature s fuel realArgs
          let rEnd ← getEndingIndex s fuel rType
          let rType' := rType.setEndIndex rEnd
          match ret with
          | PN.arrow_signature i e vs ts _ =>
            .ok (PN.arrow_signature i e vs ts (some rType'))
          | _ => .error .typeError
      | _ => .error .typeError
    | PN.node _ _ _ cs => do
      let vt ← cs.foldlM
        (fun (acc : List PN × List PN) item => do
          match item with
          | PN.typename i _ _ _ =>
            .error (.parserError i "Unexpected typename in arrow function arguments")
          | PN.node i _ _ _ =>
            .error (.parserError i "Unexpected subexpression in arrow function arguments")
          | PN.colon i _ =>
            .error (.parserError i "Unexpected colon in arrow function arguments")
          | PN.comma _ _ => .ok acc
          | PN.var i _ nm => do
            if !isSimpleVariable nm then
              throw (.parserError i "Arguments to an arrow function cannot be namespaced")
            let iEnd ← getEndingIndex s fuel item
            let endingIndex := iEnd.map (· + 1)
            .ok (acc.1 ++ [item],
              acc.2 ++ [PN.typename endingIndex endingIndex "real" true])
          | PN.type_annotation i _ tacs =>
            match tacs with
            | [tv, tt] => do
              if !isSimpleVariable (nameOfOr tv) then
                throw (.parserError i "Arguments to an arrow function cannot be namespaced")
              .ok (acc.1 ++ [tv], acc.2 ++ [tt])
            | _ => .error .typeError
          | _ =>
            .error (.parserError item.indexOf "Unexpected token in arrow function arguments"))
        ([], [])
      let vars ← vt.1.mapM (fun v => do
        let ve ← getEndingIndex s fuel v
        .ok (v.setEndIndex ve))
      let argsEnd ← getEndingIndex s fuel args
      .ok (PN.arrow_signature args.indexOf argsEnd vars vt.2 none)
    | _ => .error (.parserError args.indexOf "Invalid arrow function arguments")

/-- Step 9 `triplewise` callback: `(e1, ->, e3)` collapses to an
`arrow_function`. -/
def arrowCallback (s : String) (fuel : Nat) (e1o e2o e3o : Option PN) :
    Except JsErr TriAct :=
  match e2o with
  | none => .error .typeError
  | some e2 =>
    if e2.typeOf == "arrow_function_token" then
      match e1o with
      | none => .error (.parserError e2.indexOf "Arrow function without arguments")
      | some e1 =>
        match e3o with
        | none => .error (.parserError e2.indexOf "Arrow function without definition")
        | some e3 =>
          if e1.typeOf ≠ "node" ∧ e1.typeOf ≠ "variable" ∧
              e1.typeOf ≠ "type_annotation" then
            .error (.parserError e1.indexOf "Invalid arrow function arguments")
          else do
            let args ← processArrowFunctionSignature s fuel e1
            let e3End ← getEndingIndex s fuel e3
            .ok (.replace [PN.arrow_function e1.indexOf e3End args e2.indexOf [e3]])
    else .ok .keep

/-- Step 9: post-order walk (the right-to-left sibling order of the source's
traversal does not affect the rebuilt lists); a node whose children contain an
`arrow_function_token` has the arrow `triplewise` (right-to-left) run over its
child list. -/
def step9run (s : String) : Nat → PN → Except JsErr PN
  | 0, _ => .error .outOfFuel
  | fuel + 1, n =>
    match n.childrenOf with
    | none => .ok n
    | some cs => do
      let cs' ← cs.mapM (step9run s fuel)
      if cs'.any (fun c => c.typeOf == "arrow_function_token") then
        let cs'' ← triplewise (arrowCallback s fuel) cs' true
        .ok (n.setChildren cs'')
      else .ok (n.setChildren cs')

/-- `findTokenIndexByIndex` of `parseString`: index in the original token
array of the token whose `index` equals the given one (`-1` if none). -/
def findTokenIndexByIndex (tokens : List PN) (idx : Option Int) : Int :=
  match tokens.findIdx? (fun t => t.indexOf == idx) with
  | some i => (i : Int)
  | none => -1

/-- Step 10 check of a single surviving `node`: empty parenthesized
subexpressions and comma-bearing subexpressions are errors. The
whitespace-looks-like-a-function-call hint branch is replicated, including its
eager evaluation of `nodeToString` over a token slice (that evaluation can
itself throw); the suggestion strings themselves are not modelled. -/
def step10node (s : String) (fuel : Nat) (tokens : List PN) (isRoot : Bool) (n : PN) :
    Except JsErr Unit := do
  match n.childrenOf with
  | none => .ok ()
  | some subchildren =>
    let issueEmpty := subchildren.isEmpty
    let offendingComma := subchildren.find? (fun c => c.typeOf == "comma")
    if !issueEmpty ∧ offendingComma.isNone then .ok ()
    else
      let expressionDesc := if isRoot then "expression" else "parenthesized subexpression"
      let errorMsg :=
        if issueEmpty then "Empty " ++ expressionDesc
        else capitalizeFirstLetter expressionDesc ++ ", containing a comma,"
      let tokI := findTokenIndexByIndex tokens n.indexOf
      -- the hint branch (`tokI > 0`): a `variable` or implicit-`*` token just
      -- before the paren, preceded by another variable, yields the
      -- function-call hint error at index `tokI` (the position in the token
      -- array, as in the source)
      if tokI > 0 then
        match jsGet tokens (tokI - 1) with
        | some prevToken =>
          let pp :=
            match prevToken with
            | PN.operator_token _ _ _ imp =>
              if imp then some (tokI - 2, true) else some (tokI - 1, false)
            | PN.var _ _ _ => some (tokI - 1, false)
            | _ => none
          match pp with
          | some (ppTokenI, implicitLikely) =>
            match jsGet tokens ppTokenI with
            | some prevprevToken =>
              if prevprevToken.typeOf == "variable" then do
                let lo := tokI - 1 - (if implicitLikely then 1 else 0)
                let _ ← nodeToStringList s fuel
                  ((tokens.take (tokI + 1).toNat).drop lo.toNat)
                let _ ← getEndingIndex s fuel prevprevToken
                throw (.parserError (some tokI) errorMsg)
              else .ok ()
            | none => .ok ()
          | none => .ok ()
        | none => .ok ()
      else .ok ()
      -- the final throw; when `tokI` is truthy and a comma was found, the
      -- reported index moves to the comma
      match offendingComma with
      | some c =>
        if tokI ≠ 0 then throw (.parserError c.indexOf errorMsg)
        else throw (.parserError (some tokI) errorMsg)
      | none => throw (.parserError (some tokI) errorMsg)

/-- Step 10: pre-order walk over all records; only the traversal's top node
counts as the root for the error message. -/
def step10run (s : String) (tokens : List PN) : Nat → Bool → PN → Except JsErr Unit
  | 0, _, _ => .error .outOfFuel
  | fuel + 1, isRoot, n => do
    if n.typeOf == "node" then step10node s fuel tokens isRoot n else .ok ()
    match n.childrenOf with
    | some cs => cs.forM (step10run s tokens fuel false)
    | none => .ok ()

/-- Step 11: no token kinds may survive in the tree. -/
def step11run : Nat → PN → Except JsErr Unit
  | 0, _ => .error .outOfFuel
  | fuel + 1, n => do
    match n.typeOf with
    | "comma" | "paren" | "function_token" | "operator_token" | "property_access"
    | "colon" | "typename" | "arrow_function_token" | "type_annotation" =>
      throw (.parserError n.indexOf ("Unprocessed token \"" ++ n.typeOf ++ "\""))
    | _ => .ok ()
    match n.childrenOf with
    | some cs => cs.forM (step11run fuel)
    | none => .ok ()

/-- Step 12: post-order walk; a record missing `index` gets
`getStartingIndex`, otherwise a record missing `endIndex` gets
`getEndingIndex` (the source's `else if`: a record missing both only gets its
`index` filled in). -/
def step12run (s : String) : Nat → PN → Except JsErr PN
  | 0, _ => .error .outOfFuel
  | fuel + 1, n => do
    let n' ←
      match n.childrenOf with
      | some cs => do
        let cs' ← cs.mapM (step12run s fuel)
        pure (n.setChildren cs')
      | none => pure n
    if n'.indexOf.isNone then do
      let si ← getStartingIndex n'
      .ok (n'.setIndex si)
    else if n'.endIndexOf.isNone then do
      let ei ← getEndingIndex s fuel n'
      .ok (n'.setEndIndex ei)
    else .ok n'

/-- `checkExprDepth`: the callback depth reported for a node at nesting level
`lvl` is the traversal-stack length minus one, which is `lvl - 1` truncated at
zero (the root and its direct children are both reported at depth 0). -/
def checkExprDepthGo (maxDepth : Nat) : Nat → Nat → PN → Except JsErr Unit
  | 0, _, _ => .error .outOfFuel
  | fuel + 1, lvl, n => do
    if lvl - 1 > maxDepth then
      throw (.parserError none
        ("Expression is too deeply nested! Max depth of " ++ toString maxDepth ++ " exceeded."))
    match n.childrenOf with
    | some cs => cs.forM (checkExprDepthGo maxDepth fuel (lvl + 1))
    | none => .ok ()

/-- `checkExprDepth` entry point. -/
def checkExprDepth (maxDepth : Nat) (fuel : Nat) (root : PN) : Except JsErr Unit :=
  checkExprDepthGo maxDepth fuel 0 root

/-- Traversal fuel for one parse: tree depth never exceeds the token count,
which never exceeds twice the input length plus one. -/
def parseFuel (s : String) : Nat := 2 * s.length + 8

/-- `parseString` of `part_006`: the thirteen-step pipeline. The result is
`Except.ok none` for the `return null` of the source, `Except.ok (some root)`
for a successful parse, and `Except.error e` for a thrown error. -/
def parseString (s : String) (options : ParseOptions := {}) :
    Except JsErr (Option PN) := do
  let fuel := parseFuel s
  -- Step 1: tokenize (including the paren balancing and implicit `*`s)
  let tokens ← expressionTokenizer s options
  -- if there are no tokens, return null
  if tokens.length = 0 then return none
  -- Step 2: common token-pattern errors
  step2Checks tokens
  -- Step 3: collapse parenthesized expressions
  let newTokens ← step3Parenthesize s tokens [] []
  let rootNode := PN.node (newTokens.head?.bind PN.indexOf) none "" newTokens
  -- Step 4: vertical bars to abs
  let rootNode := step4run fuel rootNode
  -- Step 5: function collapsing
  let rootNode ← step5run s fuel rootNode
  -- Step 6: property accesses
  let rootNode ← step6run fuel rootNode
  -- Step 7: type annotations
  let rootNode ← step7run s fuel rootNode
  -- Step 8a-e: first operator passes
  let rootNode ← doItRun s firstOperatorPass fuel rootNode
  -- Step 8f: chained comparisons
  let rootNode := step8frun fuel rootNode
  -- Step 8g: comparison operators
  let rootNode ← doItRun s secondOperatorPass fuel rootNode
  -- Step 9: arrow functions
  let rootNode ← step9run s fuel rootNode
  -- Step 10: no empty or comma-bearing subexpressions
  step10run s tokens fuel true rootNode
  -- Step 11: no residual tokens
  step11run fuel rootNode
  -- Step 12: index / endIndex completion
  let rootNode ← step12run s fuel rootNode
  -- optional depth check
  match options.maxExpressionDepth with
  | some maxExprDepth => checkExprDepth maxExprDepth fuel rootNode
  | none => pure ()
  return some rootNode

/-! ## Specification-side definitions

The following definitions formalize wording of the specification / claims and
are used to compare the code's behavior against the claimed one. They are
deliberately written from the claim text, not from the source. -/

/-- Claim-side: "A is a number, a variable, or a closing paren/bracket/closing
bar" (the left token of an implicit-multiplication pair). -/
def specValueLikeLeft (t : PN) : Bool :=
  match t with
  | PN.number .. => true
  | PN.var .. => true
  | PN.paren _ _ p _ o => p == ")" || p == "]" || (p == "|" && o == some false)
  | _ => false

/-- Claim-side: "B is an opening `(`, an opening bar, a number, a variable,
or a function_token" (the right token of an implicit-multiplication pair);
in particular an opening `[` is not included. -/
def specOpenerRight (t : PN) : Bool :=
  match t with
  | PN.paren _ _ p _ o => p == "(" || (p == "|" && o == some true)
  | PN.number .. => true
  | PN.var .. => true
  | PN.function_token .. => true
  | _ => false

/-- Claim-side: insert `operator_token{op:"*", implicit:true, index:B.index-1}`
between adjacent `A B` exactly when `A` is value-like and `B` opener-like. -/
def specInsertImplicitMult : List PN → List PN
  | [] => []
  | [t] => [t]
  | t1 :: t2 :: rest =>
    t1 ::
      (if specValueLikeLeft t1 && specOpenerRight t2 then
        [PN.operator_token ((t2.indexOf).map (· - 1)) none "*" true]
      else []) ++ specInsertImplicitMult (t2 :: rest)

/-- A paren token for `|` has its `opening` flag assigned (the balancer's
documented side effect; trivially true of non-bar tokens). -/
def barOpeningAssigned (t : PN) : Bool :=
  match t with
  | PN.paren _ _ p _ o => !(p == "|") || o.isSome
  | _ => true

/-- Claim-side: digit character of the number-literal regex. -/
def isDigitCode (c : Nat) : Bool := 48 ≤ c && c ≤ 57

/-- Claim-side: the `([eE][-+]?[0-9]+)?` tail of the number-literal regex,
matched against the remaining character codes. -/
def specExpTail : List Nat → Bool
  | [] => true
  | c :: r =>
    if c = 101 ∨ c = 69 then
      let r2 := match r with
        | sgn :: r' => if sgn = 43 ∨ sgn = 45 then r' else sgn :: r'
        | [] => []
      decide (r2 ≠ []) && r2.all isDigitCode
    else false

/-- Claim-side: full-string match of `[0-9]*\.?[0-9]+([eE][-+]?[0-9]+)?`
(each digit run being maximal, the decomposition is forced, so this direct
decision procedure is equivalent to the regex). -/
def matchesNumberRegex (s : String) : Bool :=
  let l := s.data.map Char.toNat
  let ds := l.takeWhile isDigitCode
  let l1 := l.dropWhile isDigitCode
  match l1 with
  | 46 :: l2 =>
    let ds2 := l2.takeWhile isDigitCode
    decide (ds2 ≠ []) && specExpTail (l2.dropWhile isDigitCode)
  | _ => decide (ds ≠ []) && specExpTail l1

/-- Whether a token is a `colon` token. -/
def isColonTok (t : PN) : Bool := t.typeOf == "colon"

/-- Whether a token is a `typename` token. -/
def isTypenameTok (t : PN) : Bool := t.typeOf == "typename"

/-- Every colon token that is immediately followed by another token is
followed by a typename token. -/
def colonPairsOk : List PN → Bool
  | [] => true
  | [_] => true
  | a :: b :: rest => (!(isColonTok a) || isTypenameTok b) && colonPairsOk (b :: rest)

/-- Whether the accumulated token list ends with a colon token. -/
def lastIsColon (l : List PN) : Bool :=
  match l.getLast? with
  | some t => isColonTok t
  | none => false

/-- Claim-side: "the following non-whitespace characters begin a name",
starting the inspection at string position `p`. -/
def beginsNameAt (s : String) (p : Nat) : Bool :=
  (findVariableToken s (skipWs s p) (codeAt s (skipWs s p))).isSome

/-- Claim-side formalization of C9 at one input: after every colon token of a
successful tokenization, either the next emitted token is a typename, or the
characters following the colon begin a name (if they did not, the claim says
tokenization would have thrown instead of succeeding). -/
def claimC9for (s : String) : Prop :=
  ∀ toks, simpleTokenizer s 16 = Except.ok toks →
    ∀ i a, toks.get? i = some a → isColonTok a = true →
      ((∃ b, toks.get? (i + 1) = some b ∧ isTypenameTok b = true) ∨
        (∃ idx : Int, a.indexOf = some idx ∧ beginsNameAt s (idx.toNat + 1) = true))

/-- Claim-side: length of the run of backslashes (code 92) at the end of a
code list. -/
def trailingBackslashRun (l : List Nat) : Nat :=
  (l.reverse.takeWhile (fun c => c == 92)).length

/-- Claim-side: position `k` of a string literal's body is under an active
escape exactly when an odd number of consecutive backslashes immediately
precedes it. -/
def escapedAt (codes : List Nat) (k : Nat) : Bool :=
  trailingBackslashRun (codes.take k) % 2 == 1

/-- Claim-side: position `k` of the literal body holds the closing delimiter:
the quote character, not under an active escape. -/
def isUnescapedQuote (q : Nat) (codes : List Nat) (k : Nat) : Bool :=
  codes.get? k == some q && !escapedAt codes k

/-- Claim-side (C5): "strictly alternates non-operator / operator_token /
non-operator at this stage": positions of even parity (counting from `k`)
hold neither an `operator_token` nor a collapsed `operator`, positions of odd
parity hold an `operator_token`. -/
def claimAlternation : Nat → List PN → Bool
  | _, [] => true
  | k, c :: rest =>
    (if k % 2 = 0 then
      !(c.typeOf == "operator_token" || c.typeOf == "operator")
    else c.typeOf == "operator_token") && claimAlternation (k + 1) rest

/-- Claim-side (C5): the collapsed child list: operands unchanged, each
comparison operator converted to a `string` child with `src = "operator"`. -/
def specCchainChildren : Nat → List PN → List PN
  | _, [] => []
  | k, c :: rest =>
    (if k % 2 = 1 then
      match c with
      | PN.operator_token oi _ op _ =>
        PN.string oi (oi.map (· + op.length - 1)) op none "operator"
      | _ => c
    else c) :: specCchainChildren (k + 1) rest

/-! ## Theorems -/

/-- C1: the claim states that every node of a successful parse has both
`index` and `endIndex` defined with `0 ≤ index ≤ endIndex < length`, in
particular the `.` operator node of the property-access pass, e.g. for
`"a.b"`. In fact that node is created with neither field, and Step 12's
`else if` fills in only `index`, leaving `endIndex` undefined: parsing
`"a.b"` succeeds and returns a tree whose `.` operator node has
`endIndex = none`. -/
theorem claim1_property_access_endIndex_missing :
    parseString "a.b" {} =
      Except.ok (some (PN.node (some 0) (some 2) ""
        [PN.operator (some 0) none "." none
          [PN.var (some 0) (some 0) "a",
           PN.string (some 2) (some 2) "b" none "property_access"]])) ∧
    (PN.operator (some 0) none "." none
      [PN.var (some 0) (some 0) "a",
       PN.string (some 2) (some 2) "b" none "property_access"]).endIndexOf = none := by
  exact ⟨rfl, rfl⟩

/-- C2: the claim states that an empty token list (e.g. the empty string)
makes `parseString` return `null` under the default options. The tokenizer
does produce the empty token list, but the implicit-multiplication block then
pushes `tokens[0]`, i.e. `undefined`, so `parseString` sees a one-element
token array, passes the length-zero check, and crashes in Step 3 with a
`TypeError` when it reads `.type` of the `undefined` element. With
`implicitMultiplication: false` the intended `null` is returned. -/
theorem claim2_empty_input_crashes :
    simpleTokenizer "" 16 = Except.ok [] ∧
    expressionTokenizer "" {} = Except.ok [PN.undef] ∧
    parseString "" {} = Except.error JsErr.typeError ∧
    parseString " " {} = Except.error JsErr.typeError ∧
    parseString "" { implicitMultiplication := false } = Except.ok none := by
  exact ⟨rfl, rfl, rfl, rfl, rfl⟩

/-- C3: the claim states the scanner emits `operator_token` `"and"`/`"or"`
when the word is followed by whitespace, and that `parseString "a and b"`
yields an `and` operator node. In fact the variable branch of the tokenizer
precedes the operator branch and `and` starts with a valid name character, so
the scanner emits a `variable` named `"and"`; with implicit multiplication,
`"a and b"` parses as the nested product `(a * and) * b`. -/
theorem claim3_word_operators_scanned_as_variables :
    expressionTokenizer "a and b" {} =
      Except.ok [PN.var (some 0) none "a",
        PN.operator_token (some 1) none "*" true,
        PN.var (some 2) none "and",
        PN.operator_token (some 5) none "*" true,
        PN.var (some 6) none "b"] ∧
    parseString "a and b" {} =
      Except.ok (some (PN.node (some 0) (some 6) ""
        [PN.operator (some 5) (some 6) "*" (some true)
          [PN.operator (some 1) (some 4) "*" (some true)
            [PN.var (some 0) (some 0) "a", PN.var (some 2) (some 4) "and"],
           PN.var (some 6) (some 6) "b"]])) := by
  exact ⟨rfl, rfl⟩

/-- C4: the claim states that a templated name not followed by `(` is emitted
as a `variable` token and that `parseString "pair::<complex, complex>.first"`
succeeds. In fact `findTemplateSpecialization` reads `stack.length` on the
undeclared identifier `stack` when it closes the template's angle bracket, so
scanning any well-formed template specialization raises a `ReferenceError`
and the parse fails. -/
theorem claim4_template_scan_reference_error :
    simpleTokenizer "pair::<complex, complex>.first" 16 =
      Except.error JsErr.refError ∧
    parseString "pair::<complex, complex>.first" {} =
      Except.error JsErr.refError := by
  exact ⟨rfl, rfl⟩

/-- C8: the claim states every emitted number token matches
`[0-9]*\.?[0-9]+([eE][-+]?[0-9]+)?`. The scanner accepts a trailing exponent
marker and a trailing decimal point: `"3e"` and `"3."` are emitted as number
tokens although neither matches the regex. -/
theorem claim8_number_token_regex_violated :
    simpleTokenizer "3e" 16 = Except.ok [PN.number (some 0) none "3e"] ∧
    matchesNumberRegex "3e" = false ∧
    simpleTokenizer "3." 16 = Except.ok [PN.number (some 0) none "3."] ∧
    matchesNumberRegex "3." = false ∧
    matchesNumberRegex "3.5e-7" = true ∧
    matchesNumberRegex ".5" = true := by
  exact ⟨rfl, rfl, rfl, rfl, rfl, rfl⟩

/-- C6: `"||x||"` tokenizes with both leading bars classified as opening bars
and parses to `abs (abs x)` with `parenInfo.verticalBar = true` on both
nodes, under the empty-`parenType` root node. -/
theorem claim6_double_bar_abs :
    expressionTokenizer "||x||" {} =
      Except.ok [PN.paren (some 0) none "|" 1 (some true),
        PN.paren (some 1) none "|" 2 (some true),
        PN.var (some 2) none "x",
        PN.paren (some 3) none "|" 2 (some false),
        PN.paren (some 4) none "|" 1 (some false)] ∧
    parseString "||x||" {} =
      Except.ok (some (PN.node (some 0) (some 4) ""
        [PN.function (some 0) (some 4) "abs" ⟨some 0, some 4, true⟩
          [PN.function (some 1) (some 3) "abs" ⟨some 1, some 3, true⟩
            [PN.var (some 2) (some 2) "x"]]])) := by
  exact ⟨rfl, rfl⟩

/-- The left-token condition of the inserter agrees with the claim's
"number, variable, or closing paren/bracket/closing bar", provided bar tokens
have their `opening` flag assigned (raw bars with an unassigned flag count as
closing for the code but not for the claim). -/
theorem valueLikeLeft_eq_spec (t1 : PN) (h : barOpeningAssigned t1 = true) :
    (t1.typeOf == "number" || t1.typeOf == "variable" ||
        (t1.typeOf == "paren" && isCloseParen t1)) = specValueLikeLeft t1 := by
  cases t1
  case paren i e p pid o =>
    cases o with
    | none =>
      have hp : (p == "|") = false := by
        simpa [barOpeningAssigned] using h
      simp [PN.typeOf, isCloseParen, specValueLikeLeft, hp]
    | some b => cases b <;> simp [PN.typeOf, isCloseParen, specValueLikeLeft]
  all_goals rfl

/-- The right-token condition of the inserter agrees with the claim's
"opening `(`, opening bar, number, variable, or function_token"
unconditionally. -/
theorem openerRight_eq_spec (t2 : PN) :
    ((t2.typeOf == "paren" && isOpenParen t2) ||
        t2.typeOf == "number" || t2.typeOf == "variable" ||
        t2.typeOf == "function_token") = specOpenerRight t2 := by
  cases t2
  case paren i e p pid o =>
    cases o with
    | none => simp [PN.typeOf, isOpenParen, specOpenerRight]
    | some b => cases b <;> simp [PN.typeOf, isOpenParen, specOpenerRight]
  all_goals rfl

/-- The full insertion condition agrees with the claim's condition. -/
theorem implicitMultCondition_eq_spec (t1 t2 : PN) (h : barOpeningAssigned t1 = true) :
    implicitMultCondition t1 t2 = (specValueLikeLeft t1 && specOpenerRight t2) := by
  unfold implicitMultCondition
  rw [valueLikeLeft_eq_spec t1 h, openerRight_eq_spec t2]

/-- C7: for every nonempty token list whose bar tokens carry an `opening`
flag (the bracket balancer's documented side effect), the
implicit-multiplication block inserts
`operator_token{op:"*", implicit:true, index:B.index-1}` between adjacent
tokens `A B` exactly when `A` is a number, a variable, or a closing
paren/bracket/closing bar and `B` is an opening `(`, an opening bar, a
number, a variable, or a `function_token` — in particular never before an
opening `[`. -/
theorem claim7_implicit_multiplication (t : PN) (ts : List PN)
    (h : ∀ u ∈ t :: ts, barOpeningAssigned u = true) :
    insertImplicitMult (t :: ts) = specInsertImplicitMult (t :: ts) := by
  induction ts generalizing t with
  | nil => rfl
  | cons t2 rest ih =>
    have h1 : barOpeningAssigned t = true := h t (by simp)
    have h2 : ∀ u ∈ t2 :: rest, barOpeningAssigned u = true := by
      intro u hu
      exact h u (List.mem_cons_of_mem t hu)
    have hgo : insertImplicitMult.insertImplicitMultGo t2 rest =
        specInsertImplicitMult (t2 :: rest) := by
      have := ih t2 h2
      simpa [insertImplicitMult] using this
    show insertImplicitMult.insertImplicitMultGo t (t2 :: rest) = _
    rw [insertImplicitMult.insertImplicitMultGo, hgo,
      implicitMultCondition_eq_spec t t2 h1]
    rfl

/-- Closed instance of C7: between a number and a variable a synthetic
implicit `*` is inserted, matching the claim's description. -/
theorem claim7_witness :
    insertImplicitMult [PN.number (some 0) none "2", PN.var (some 1) none "x"] =
      specInsertImplicitMult [PN.number (some 0) none "2", PN.var (some 1) none "x"] :=
  claim7_implicit_multiplication _ _ (by decide)

/-- The claim's alternation condition implies the parity scan of Step 8f. -/
theorem claimAlternation_imp_ok :
    ∀ (k : Nat) (cs : List PN), claimAlternation k cs = true →
      cchainAlternationOk k cs = true := by
  intro k cs
  induction cs generalizing k with
  | nil => intro _; rfl
  | cons c rest ih =>
    intro h
    simp only [claimAlternation, Bool.and_eq_true] at h
    obtain ⟨hc, hrest⟩ := h
    simp only [cchainAlternationOk, Bool.and_eq_true]
    refine ⟨?_, ih (k + 1) hrest⟩
    by_cases hk : k % 2 = 0
    · rw [if_pos hk] at hc
      simp [hk, Bool.not_eq_true'] at hc ⊢
      simp [hc]
    · rw [if_neg hk] at hc
      simp [hk, hc]

/-- Under the claim's alternation condition the Step 8f conversion of the
child list agrees with the claim-side description (odd positions become
`string` children with `src = "operator"`). -/
theorem cchainConvert_eq_spec :
    ∀ (k : Nat) (cs : List PN), claimAlternation k cs = true →
      cchainConvert k cs = specCchainChildren k cs := by
  intro k cs
  induction cs generalizing k with
  | nil => intro _; rfl
  | cons c rest ih =>
    intro h
    simp only [claimAlternation, Bool.and_eq_true] at h
    obtain ⟨hc, hrest⟩ := h
    simp only [cchainConvert, specCchainChildren]
    rw [ih (k + 1) hrest]
    by_cases hk : k % 2 = 1
    · have hk0 : ¬(k % 2 = 0) := by omega
      rw [if_neg hk0] at hc
      rw [if_pos hk, if_pos hk]
      cases c
      all_goals first
        | rfl
        | simp [PN.typeOf] at hc
    · rw [if_neg hk, if_neg hk]

/-- C5: `parseString "a < b < c"` returns the `cchain` root with
`implicit = false` and the children
`[a, "<" (src operator), b, "<" (src operator), c]`; in general, the Step 8f
callback collapses any `node` whose child list has odd length at least 5 and
strictly alternates non-operator / `operator_token` / non-operator into a
single such `cchain` operator node, converting each comparison operator to a
`string` child with `src = "operator"`. -/
theorem claim5_cchain :
    parseString "a < b < c" {} =
      Except.ok (some (PN.operator (some 0) (some 8) "cchain" (some false)
        [PN.var (some 0) (some 0) "a",
         PN.string (some 2) (some 2) "<" none "operator",
         PN.var (some 4) (some 4) "b",
         PN.string (some 6) (some 6) "<" none "operator",
         PN.var (some 8) (some 8) "c"])) ∧
    ∀ (i e : Option Int) (pt : String) (cs : List PN),
      5 ≤ cs.length → cs.length % 2 = 1 → claimAlternation 0 cs = true →
      cchainStep (PN.node i e pt cs) =
        PN.operator i e "cchain" (some false) (specCchainChildren 0 cs) := by
  constructor
  · rfl
  · intro i e pt cs h5 hodd halt
    unfold cchainStep
    simp only [PN.childrenOf]
    rw [if_neg (by omega), if_pos (claimAlternation_imp_ok 0 cs halt),
      cchainConvert_eq_spec 0 cs halt]
    rfl

/-- Closed instance of C5's general statement, at the `"a < b < c"` child
list itself. -/
theorem claim5_witness :
    cchainStep (PN.node (some 0) none ""
      [PN.var (some 0) none "a",
       PN.operator_token (some 2) none "<" false,
       PN.var (some 4) none "b",
       PN.operator_token (some 6) none "<" false,
       PN.var (some 8) none "c"]) =
      PN.operator (some 0) none "cchain" (some false)
        (specCchainChildren 0
          [PN.var (some 0) none "a",
           PN.operator_token (some 2) none "<" false,
           PN.var (some 4) none "b",
           PN.operator_token (some 6) none "<" false,
           PN.var (some 8) none "c"]) :=
  claim5_cchain.2 (some 0) none "" _ (by decide) (by decide) (by decide)

/-- A single-character token is a paren or a comma, never a colon. -/
theorem singleCharToken_not_colon (c p : Nat) (t : PN)
    (h : singleCharToken c p = some t) : isColonTok t = false := by
  unfold singleCharToken at h
  split at h <;> first | (cases h; rfl) | exact Option.noConfusion h

/-- Every token the scanner emits while `expectingTypename` is set is a
`typename` token, and the new `expectingTypename` flag is set exactly when
the emitted token is a colon. -/
theorem tokStepCore_emit_inv (s : String) (mtd p : Nat) (exp : Bool) (t : PN)
    (ni : Nat) (ne : Bool) (h : tokStepCore s mtd p exp = .emit t ni ne) :
    (exp = true → isTypenameTok t = true) ∧ ne = isColonTok t := by
  unfold tokStepCore at h
  repeat' (first | exact TokStep.noConfusion h | split at h)
  all_goals injection h with h1 h2 h3
  all_goals subst h1
  all_goals subst h3
  all_goals refine ⟨?_, ?_⟩
  all_goals try simp [isTypenameTok, isColonTok, PN.typeOf]
  all_goals simp_all [isColonTok, isTypenameTok, PN.typeOf]
  all_goals rename_i heq _
  all_goals
    have hk := singleCharToken_not_colon _ _ _ heq
  all_goals simpa [isColonTok, PN.typeOf] using hk

/-- Appending a token: the last-is-colon flag becomes the new token's. -/
theorem lastIsColon_append (l : List PN) (t : PN) :
    lastIsColon (l ++ [t]) = isColonTok t := by
  simp [lastIsColon, List.getLast?_concat]

/-- Appending a token preserves `colonPairsOk` provided the token is a
typename whenever the list ends with a colon. -/
theorem colonPairsOk_append :
    ∀ (l : List PN) (t : PN), colonPairsOk l = true →
      (lastIsColon l = true → isTypenameTok t = true) →
      colonPairsOk (l ++ [t]) = true := by
  intro l
  induction l with
  | nil => intro t _ _; rfl
  | cons a rest ih =>
    intro t hl ht
    cases rest with
    | nil =>
      simp only [List.cons_append, List.nil_append, colonPairsOk, Bool.and_eq_true]
      refine ⟨?_, by trivial⟩
      cases hca : isColonTok a with
      | false => simp [hca]
      | true => simp [ht (by simp [lastIsColon, hca])]
    | cons b rest' =>
      simp only [colonPairsOk, Bool.and_eq_true] at hl
      have ht' : lastIsColon (b :: rest') = true → isTypenameTok t = true := by
        intro hb
        refine ht ?_
        simpa [lastIsColon] using hb
      have := ih t hl.2 ht'
      simp only [List.cons_append, colonPairsOk, Bool.and_eq_true]
      exact ⟨hl.1, by simpa using this⟩

/-- Invariant of the tokenizer loop: if the flag mirrors whether the
accumulator ends with a colon and the accumulator satisfies the
colon-typename pairing, then so does any successful result. -/
theorem tokLoop_colonPairs (s : String) (mtd : Nat) :
    ∀ (fuel ci : Nat) (exp : Bool) (acc toks : List PN),
      exp = lastIsColon acc → colonPairsOk acc = true →
      tokLoop s mtd fuel ci exp acc = Except.ok toks → colonPairsOk toks = true := by
  intro fuel
  induction fuel with
  | zero =>
    intro ci exp acc toks _ _ h
    exact absurd h (by simp [tokLoop])
  | succ fuel ih =>
    intro ci exp acc toks hexp hacc h
    rw [tokLoop] at h
    cases hs : tokStep s mtd ci exp with
    | done =>
      rw [hs] at h
      cases h
      exact hacc
    | fail e =>
      rw [hs] at h
      exact Except.noConfusion h
    | emit t ni ne =>
      rw [hs] at h
      have hinv := tokStepCore_emit_inv s mtd (skipWs s ci) exp t ni ne hs
      refine ih ni ne (acc ++ [t]) toks ?_ ?_ h
      · rw [lastIsColon_append]
        exact hinv.2
      · refine colonPairsOk_append acc t hacc ?_
        intro hlast
        exact hinv.1 (by rw [hexp, hlast])

/-- C9 (amended): in every successful tokenization, a colon token that is
followed by another token is immediately followed by a typename token; while
`expectingTypename` is set (i.e. directly after a colon), a next
non-whitespace character that exists but does not begin a name makes the
scanner throw `ParserError "Expected typename"` at that position — as the
concrete rejections of `"x: 3"` and `"x: (real)"` illustrate. (When the
input ends after the colon, tokenization returns normally; see the
counterexample.) -/
theorem claim9_colon_typename :
    (∀ (s : String) (mtd : Nat) (toks : List PN),
        simpleTokenizer s mtd = Except.ok toks → colonPairsOk toks = true) ∧
    (∀ (s : String) (mtd ci : Nat),
        skipWs s ci < s.length →
        findVariableToken s (skipWs s ci) (codeAt s (skipWs s ci)) = none →
        tokStep s mtd ci true =
          TokStep.fail (.parserError (some (skipWs s ci)) "Expected typename")) ∧
    simpleTokenizer "x: 3" 16 =
      Except.error (.parserError (some 3) "Expected typename") ∧
    simpleTokenizer "x: (real)" 16 =
      Except.error (.parserError (some 3) "Expected typename") := by
  refine ⟨?_, ?_, rfl, rfl⟩
  · intro s mtd toks h
    unfold simpleTokenizer at h
    split at h
    · exact Except.noConfusion h
    · exact tokLoop_colonPairs s mtd (s.length + 1) 0 false [] toks rfl rfl h
  · intro s mtd ci hlt hvar
    unfold tokStep tokStepCore
    rw [if_neg (by omega)]
    cases hsc : singleCharToken ((codeAt s (skipWs s ci)).getD 0) (skipWs s ci) with
    | some t => simp
    | none => simp [hvar]

/-- Closed instance of C9's amended statement: the successful tokenization of
`"x: real"` pairs its colon with a typename, and the state after the colon of
`"x: 3"` fails with the "Expected typename" error at index 3. -/
theorem claim9_witness :
    colonPairsOk [PN.var (some 0) none "x", PN.colon (some 1) none,
      PN.typename (some 3) none "real" false] = true ∧
    tokStep "x: 3" 16 2 true =
      TokStep.fail (.parserError (some 3) "Expected typename") := by
  constructor
  · exact claim9_colon_typename.1 "x: real" 16 _ rfl
  · have h := claim9_colon_typename.2.1 "x: 3" 16 2 (by decide) (by rfl)
    simpa using h

/-- C9 as stated is false at the input `"x:"`: tokenization succeeds with the
colon as last token (no typename follows and no error is thrown) although the
characters following the colon (none) do not begin a name. -/
theorem claim9_counterexample : ¬ claimC9for "x:" := by
  intro h
  have h2 := h [PN.var (some 0) none "x", PN.colon (some 1) none] rfl 1
    (PN.colon (some 1) none) rfl rfl
  rcases h2 with ⟨b, hb, _⟩ | ⟨idx, hidx, hbegins⟩
  · have : ([PN.var (some 0) none "x", PN.colon (some 1) none].get? 2 : Option PN) = none := rfl
    rw [this] at hb
    exact Option.noConfusion hb
  · have hidx' : idx = 1 := by
      have : (PN.colon (some 1) none).indexOf = some 1 := rfl
      rw [this] at hidx
      exact (Option.some_inj.mp hidx).symm
    subst hidx'
    have : beginsNameAt "x:" ((1 : Int).toNat + 1) = false := rfl
    rw [this] at hbegins
    exact Bool.noConfusion hbegins

/-- Appending one code to a list: the trailing backslash run extends on a
backslash and resets otherwise. -/
theorem trailingBackslashRun_concat (pre : List Nat) (c : Nat) :
    trailingBackslashRun (pre ++ [c]) =
      if c == 92 then trailingBackslashRun pre + 1 else 0 := by
  unfold trailingBackslashRun
  rw [List.reverse_append]
  cases hc : (c == 92) <;> simp [List.takeWhile_cons, hc]

/-- The scan of `findStringToken`'s loop, started in the escape state
belonging to the consumed prefix `pre`, finds exactly the first unescaped
occurrence of the quote character (escaping being independently defined by
the parity of the preceding backslash run). -/
theorem findStringScan_some (q : Nat) :
    ∀ (l : List Char) (pre : List Nat) (k : Nat),
      findStringScan q l (escapedAt (pre ++ l.map Char.toNat) pre.length) = some k →
      isUnescapedQuote q (pre ++ l.map Char.toNat) (pre.length + k) = true ∧
      ∀ j < k, isUnescapedQuote q (pre ++ l.map Char.toNat) (pre.length + j) = false := by
  intro l
  induction l with
  | nil =>
    intro pre k h
    exact Option.noConfusion h
  | cons c l' ih =>
    intro pre k h
    have hesc : escapedAt (pre ++ (c :: l').map Char.toNat) pre.length =
        escapedAt pre pre.length := by
      unfold escapedAt
      rw [show (pre ++ (c :: l').map Char.toNat).take pre.length = pre.take pre.length by
        simp [List.take_append]]
    have htake : escapedAt pre pre.length = (trailingBackslashRun pre % 2 == 1) := by
      unfold escapedAt
      rw [List.take_length]
    have hget : (pre ++ (c :: l').map Char.toNat).get? pre.length = some c.toNat := by
      rw [List.get?_append_right (Nat.le_refl _)]
      simp
    rw [findStringScan] at h
    by_cases hq : (c.toNat == q && !(escapedAt (pre ++ (c :: l').map Char.toNat) pre.length)) = true
    · rw [if_pos hq] at h
      cases h
      simp only [Bool.and_eq_true, Bool.not_eq_true'] at hq
      constructor
      · unfold isUnescapedQuote
        rw [Nat.add_zero, hget, hq.2]
        simp [hq.1]
      · intro j hj
        omega
    · rw [if_neg hq] at h
      -- the scan recursed: peel the successor off the result
      cases hrec : findStringScan q l'
          (if c.toNat == 92 then !(escapedAt (pre ++ (c :: l').map Char.toNat) pre.length)
            else false) with
      | none => rw [hrec] at h; exact Option.noConfusion h
      | some k' =>
        rw [hrec] at h
        injection h with hk
        subst hk
        -- the recursive state is the escape state of the longer prefix
        have hL : pre ++ (c :: l').map Char.toNat = (pre ++ [c.toNat]) ++ l'.map Char.toNat := by
          simp
        have hstate : (if c.toNat == 92
              then !(escapedAt (pre ++ (c :: l').map Char.toNat) pre.length) else false) =
            escapedAt ((pre ++ [c.toNat]) ++ l'.map Char.toNat) (pre ++ [c.toNat]).length := by
          rw [hesc, htake]
          unfold escapedAt
          rw [show ((pre ++ [c.toNat]) ++ l'.map Char.toNat).take (pre ++ [c.toNat]).length =
              pre ++ [c.toNat] from by rw [List.take_left]]
          rw [trailingBackslashRun_concat]
          cases hc : (c.toNat == 92) with
          | false => simp [hc]
          | true =>
            simp only [hc]
            by_cases hr : trailingBackslashRun pre % 2 = 1
            · have h2 : (trailingBackslashRun pre + 1) % 2 = 0 := by omega
              simp [hr, h2]
            · have h2 : (trailingBackslashRun pre + 1) % 2 = 1 := by omega
              simp [hr, h2]
        rw [hstate] at hrec
        have hih := ih (pre ++ [c.toNat]) k' hrec
        rw [← hL] at hih
        have hlen : (pre ++ [c.toNat]).length = pre.length + 1 := by simp
        rw [hlen] at hih
        constructor
        · have := hih.1
          rw [show pre.length + 1 + k' = pre.length + (k' + 1) from by omega] at this
          exact this
        · intro j hj
          cases j with
          | zero =>
            -- position pre.length itself is not an unescaped quote
            simp only [Bool.and_eq_true, Bool.not_eq_true', not_and] at hq
            unfold isUnescapedQuote
            rw [Nat.add_zero, hget]
            cases hcq : (c.toNat == q) with
            | false => simp [hcq]
            | true =>
              have h2 : escapedAt (pre ++ (c :: l').map Char.toNat) pre.length = true := by
                cases hbe : escapedAt (pre ++ (c :: l').map Char.toNat) pre.length with
                | true => rfl
                | false => exact absurd hbe (hq hcq)
              simp only [List.map_cons] at h2
              simp [hcq, h2]
          | succ j' =>
            have := hih.2 j' (by omega)
            rw [show pre.length + 1 + j' = pre.length + (j' + 1) from by omega] at this
            exact this

/-- A quote character can never start a variable token. -/
theorem findVariableToken_at_quote (s : String) (p q : Nat)
    (hq : q = 34 ∨ q = 39) (hcode : codeAt s p = some q) :
    findVariableToken s p (some q) = none := by
  have hgo : fvtLoop s p (s.length + 1) p 0 p = (p, 0, p) := by
    rw [fvtLoop]
    by_cases hp : p < s.length
    · rw [if_pos hp, hcode]
      rcases hq with rfl | rfl <;>
        simp [findSimpleVariableToken, isValidStartingCharacterO, isValidStartingCharacter]
    · rw [if_neg hp]
  rcases hq with rfl | rfl <;> simp [findVariableToken, hgo]

/-- While not expecting a typename, a position holding a string literal makes
the scanner emit exactly the token the source builds: `contents` is the raw
slice strictly between the delimiters and `quote` is 0 for `"` and 1 for `'`. -/
theorem tokStep_string_emission (s : String) (mtd ci p q ti : Nat)
    (hskip : skipWs s ci = p) (hp : p < s.length) (hcode : codeAt s p = some q)
    (hq : q = 34 ∨ q = 39) (hfind : findStringToken s p (some q) = some ti) :
    tokStep s mtd ci false =
      TokStep.emit (PN.string (some p) none (jsSlice s (p + 1) (ti - 1))
        (some (if q = 34 then 0 else 1)) "string") ti false := by
  have hvar := findVariableToken_at_quote s p q hq hcode
  unfold tokStep tokStepCore
  rw [hskip, if_neg (by omega), hcode]
  rcases hq with rfl | rfl <;> simp [singleCharToken, hvar, hfind]

/-- C10: a successful `findStringToken` ends precisely at the first
occurrence of the delimiter quote that is not under an active escape (escape
defined independently as an odd run of preceding backslashes), and the
emitted token's `contents` is the raw source slice strictly between the two
delimiters, with `quote = 0` for `"` and `1` for `'` — concretely, escapes
are retained undecoded in `contents`. -/
theorem claim10_string_tokens :
    (∀ (s : String) (i q r : Nat), q = 34 ∨ q = 39 →
        findStringToken s i (some q) = some r →
        ∃ k, r = i + 2 + k ∧
          isUnescapedQuote q ((s.data.drop (i + 1)).map Char.toNat) k = true ∧
          ∀ j < k, isUnescapedQuote q ((s.data.drop (i + 1)).map Char.toNat) j = false) ∧
    (∀ (s : String) (mtd ci p q ti : Nat),
        skipWs s ci = p → p < s.length → codeAt s p = some q →
        q = 34 ∨ q = 39 → findStringToken s p (some q) = some ti →
        tokStep s mtd ci false =
          TokStep.emit (PN.string (some p) none (jsSlice s (p + 1) (ti - 1))
            (some (if q = 34 then 0 else 1)) "string") ti false) ∧
    simpleTokenizer "\"a\\\"b\"" 16 =
      Except.ok [PN.string (some 0) none "a\\\"b" (some 0) "string"] ∧
    simpleTokenizer "'ab'" 16 =
      Except.ok [PN.string (some 0) none "ab" (some 1) "string"] := by
  refine ⟨?_, ?_, rfl, rfl⟩
  · intro s i q r hq h
    have h' : (if q = 34 ∨ q = 39 then
        (findStringScan q (s.data.drop (i + 1)) false).map (fun k => i + 1 + k + 1)
      else none) = some r := h
    rw [if_pos hq] at h'
    cases hscan : findStringScan q (s.data.drop (i + 1)) false with
    | none => rw [hscan] at h'; exact Option.noConfusion h'
    | some k =>
      rw [hscan] at h'
      injection h' with hr
      have hr' : i + 1 + k + 1 = r := hr
      refine ⟨k, by omega, ?_⟩
      have h0 : escapedAt ([] ++ (s.data.drop (i + 1)).map Char.toNat)
          (List.length ([] : List Nat)) = false := rfl
      have hscan' : findStringScan q (s.data.drop (i + 1))
          (escapedAt ([] ++ (s.data.drop (i + 1)).map Char.toNat)
            (List.length ([] : List Nat))) = some k := by
        rw [h0]; exact hscan
      have hmain := findStringScan_some q (s.data.drop (i + 1)) [] k hscan'
      simpa using hmain
  · intro s mtd ci p q ti hskip hp hcode hq hfind
    exact tokStep_string_emission s mtd ci p q ti hskip hp hcode hq hfind

/-- Closed instance of C10: for the input `"'ab'"` the closing delimiter is
found at relative body position 2 and the scanner emits
`string "ab"` with `quote = 1`. -/
theorem claim10_witness :
    (∃ k, 4 = 0 + 2 + k ∧
      isUnescapedQuote 39 (("'ab'".data.drop 1).map Char.toNat) k = true ∧
      ∀ j < k, isUnescapedQuote 39 (("'ab'".data.drop 1).map Char.toNat) j = false) ∧
    tokStep "'ab'" 16 0 false =
      TokStep.emit (PN.string (some 0) none (jsSlice "'ab'" 1 3)
        (some (if 39 = 34 then 0 else 1)) "string") 4 false := by
  constructor
  · exact claim10_string_tokens.1 "'ab'" 0 39 4 (by omega) rfl
  · exact claim10_string_tokens.2.1 "'ab'" 16 0 0 39 4 rfl (by decide) rfl (by omega) rfl

end Grapheme
